import Mathlib

/-!
# Verification of the competitive-intelligence pipeline (cache + streaming)

Shallow embedding of the caching and streaming core of the repository
(`src/api/redis_cache.py`, `src/api/ci_agent.py`,
`src/api/enhanced_ci_agent_with_modes.py`, `src/api/app.py`,
`src/api/enhanced_app_with_modes.py`), together with theorems settling the
frozen claims about it.

Modelling conventions:
* Python strings are Lean `String`s / `List Char` (Unicode scalar values;
  Lean `Char` excludes surrogate code points).
* Python values that may or may not be JSON-serializable are modelled by
  `PyVal`; the constructor `PyVal.blob` stands for an arbitrary
  non-JSON-serializable Python object.
* Wall-clock time is a `Nat` of milliseconds (`/ 1000` gives the second used
  by `strftime`); `datetime.now().isoformat()` is modelled by `isoformat`.
* `hashlib.md5(s).hexdigest()` is modelled symbolically by an ideal
  (collision-free) digest `md5Hexdigest`; the fingerprint invariant the
  code relies on presupposes collision-freeness of the digest.
-/

set_option maxRecDepth 10000

/-- Model of a Python runtime value as passed around by the code under
verification.  `blob` stands for an arbitrary object that `json.dumps`
cannot serialize (everything else is JSON-serializable provided its
components are). -/
inductive PyVal where
  | none : PyVal
  | bool (b : Bool) : PyVal
  | int (n : Int) : PyVal
  | str (s : String) : PyVal
  | list (l : List PyVal) : PyVal
  | dict (l : List (String × PyVal)) : PyVal
  | blob (id : Nat) : PyVal

namespace PyVal

/-- Python truthiness (`if x:`): `None`, `False`, `0`, `""`, `[]` and
`{}` are falsy; any other value — including any non-serializable object —
is truthy. -/
def truthy : PyVal → Bool
  | .none => false
  | .bool b => b
  | .int n => decide (n ≠ 0)
  | .str s => decide (s ≠ "")
  | .list l => !l.isEmpty
  | .dict l => !l.isEmpty
  | .blob _ => true

end PyVal

mutual

/-- Whether `json.dumps` succeeds on the value: true exactly when no
`blob` occurs anywhere inside it. -/
def PyVal.serializable : PyVal → Bool
  | .none => true
  | .bool _ => true
  | .int _ => true
  | .str _ => true
  | .blob _ => false
  | .list l => PyVal.serializableList l
  | .dict l => PyVal.serializableDict l

/-- `serializable` on every element of a list. -/
def PyVal.serializableList : List PyVal → Bool
  | [] => true
  | x :: xs => x.serializable && PyVal.serializableList xs

/-- `serializable` on every value of a dictionary. -/
def PyVal.serializableDict : List (String × PyVal) → Bool
  | [] => true
  | (_, v) :: xs => v.serializable && PyVal.serializableDict xs

end

/-- Model of `str(obj)` for a non-serializable object (used by
`json.dumps(..., default=str)` and by fallback branches). -/
def PyVal.blobStr (id : Nat) : String := "<object " ++ toString id ++ ">"

mutual

/-- Model of a `json.dumps(..., default=str)` round trip through the Redis
backend: every non-serializable sub-value is replaced by its `str()`
rendering; JSON-serializable values come back unchanged (see
`PyVal.jsonSafe_of_serializable`). -/
def PyVal.jsonSafe : PyVal → PyVal
  | .none => .none
  | .bool b => .bool b
  | .int n => .int n
  | .str s => .str s
  | .blob id => .str (PyVal.blobStr id)
  | .list l => .list (PyVal.jsonSafeList l)
  | .dict l => .dict (PyVal.jsonSafeDict l)

/-- `jsonSafe` mapped over a list. -/
def PyVal.jsonSafeList : List PyVal → List PyVal
  | [] => []
  | x :: xs => x.jsonSafe :: PyVal.jsonSafeList xs

/-- `jsonSafe` mapped over the values of a dictionary. -/
def PyVal.jsonSafeDict : List (String × PyVal) → List (String × PyVal)
  | [] => []
  | (k, v) :: xs => (k, v.jsonSafe) :: PyVal.jsonSafeDict xs

end

/-- Dictionary key lookup, `d.get(k)`: first binding wins. -/
def PyVal.lookup (v : PyVal) (k : String) : Option PyVal :=
  match v with
  | .dict l => l.lookup k
  | _ => Option.none

/-! ## Python string helpers

`str.lower` / `str.strip` are modelled character-wise over the ASCII
range (the subject names manipulated by the code); `str.replace(' ', '_')`
is a per-character substitution. -/

/-- Characters removed by Python `str.strip()` (ASCII whitespace: space,
`\t`, `\n`, `\v`, `\f`, `\r`). -/
def pyIsSpace (c : Char) : Bool :=
  decide (c.toNat = 32 ∨ (9 ≤ c.toNat ∧ c.toNat ≤ 13))

/-- ASCII lowercasing of one character (model of `str.lower`). -/
def pyToLower (c : Char) : Char :=
  if 65 ≤ c.toNat ∧ c.toNat ≤ 90 then Char.ofNat (c.toNat + 32) else c

/-- `s.lower()` on a character list. -/
def pyLower (l : List Char) : List Char := l.map pyToLower

/-- Drop trailing characters satisfying `p`. -/
def dropWhileRight (p : Char → Bool) (l : List Char) : List Char :=
  (l.reverse.dropWhile p).reverse

/-- `s.strip()` on a character list: drop leading and trailing
whitespace. -/
def pyStrip (l : List Char) : List Char :=
  dropWhileRight pyIsSpace (l.dropWhile pyIsSpace)

/-- `s.replace(' ', '_')` on a character list. -/
def pyReplaceSpace (l : List Char) : List Char :=
  l.map fun c => if c = ' ' then '_' else c

/-- Model of `datetime.now().isoformat()` at clock value `t`
(milliseconds): an uninterpreted deterministic rendering of the clock. -/
def isoformat (t : Nat) : String := "ts:" ++ toString t

/-! ## The analysis fingerprint (`RedisCache._generate_cache_key`)

`_generate_cache_key("analysis", {"competitor": ..., "website": ...})`
serializes the dict with `json.dumps(data, sort_keys=True)` (so
`competitor` precedes `website`) and hashes the resulting string with MD5.
The serialization is embedded faithfully, including the `ensure_ascii`
escaping that `json.dumps` applies to string values. -/

/-- Lowercase hex digit, as produced by Python `'%04x'`. -/
def hexDig (n : Nat) : Char :=
  if n < 10 then Char.ofNat (48 + n) else Char.ofNat (87 + n)

/-- The four hex digits of `n < 0x10000` (Python `'\u%04x'` payload). -/
def hex4 (n : Nat) : List Char :=
  [hexDig (n / 4096 % 16), hexDig (n / 256 % 16), hexDig (n / 16 % 16),
   hexDig (n % 16)]

/-- Escape of a single character inside a JSON string literal, following
Python's `json.encoder` with `ensure_ascii=True`: the two-character
escapes of `ESCAPE_DCT`, `\uXXXX` for other control and non-ASCII
characters, and a surrogate pair for astral code points. -/
def escChar (c : Char) : List Char :=
  if c.toNat = 34 then ['\\', '"']
  else if c.toNat = 92 then ['\\', '\\']
  else if c.toNat = 8 then ['\\', 'b']
  else if c.toNat = 12 then ['\\', 'f']
  else if c.toNat = 10 then ['\\', 'n']
  else if c.toNat = 13 then ['\\', 'r']
  else if c.toNat = 9 then ['\\', 't']
  else if 32 ≤ c.toNat ∧ c.toNat ≤ 126 then [c]
  else if c.toNat < 65536 then '\\' :: 'u' :: hex4 c.toNat
  else '\\' :: 'u' :: hex4 (55296 + (c.toNat - 65536) / 1024) ++
       '\\' :: 'u' :: hex4 (56320 + (c.toNat - 65536) % 1024)

/-- Escape of a whole string (body of a JSON string literal). -/
def escString : List Char → List Char
  | [] => []
  | c :: r => escChar c ++ escString r

/-- A JSON string literal: `"`, escaped body, `"`. -/
def jsonStrLit (s : List Char) : List Char := '"' :: (escString s ++ ['"'])

/-- JSON rendering of the `website` field: Python `None` serializes as
`null`; a string — including the empty string — as a quoted literal. -/
def websiteJson : Option (List Char) → List Char
  | Option.none => "null".data
  | Option.some w => jsonStrLit w

/-- `json.dumps({"competitor": comp, "website": web}, sort_keys=True)`:
the canonical serialization hashed by `_generate_cache_key`. -/
def analysisDataStr (comp : List Char) (web : Option (List Char)) : List Char :=
  "\x7b\"competitor\": \"".data ++
    (escString comp ++ '"' :: (", \"website\": ".data ++
      (websiteJson web ++ ['\x7d'])))

/-- Symbolic model of `hashlib.md5(s.encode()).hexdigest()`: an ideal
(injective) digest.  The spec's fingerprint invariant ("equal requests
give equal fingerprints, different requests give different ones")
presupposes collision-freeness of MD5 on the serialized inputs, so the
digest is modelled as the identity embedding of its input. -/
def md5Hexdigest (data : List Char) : List Char := data

/-- `RedisCache._generate_cache_key(prefix, data)`:
`f"ci:\x7bprefix\x7d:\x7bdata_hash\x7d"`. -/
def generateCacheKey (pre data : List Char) : List Char :=
  "ci:".data ++ pre ++ ':' :: md5Hexdigest data

/-- The analysis cache key computed by `RedisCache.get_analysis` /
`set_analysis`: the competitor name is lower-cased and stripped
(`competitor_name.lower().strip()`), the website is passed through
unmodified (`None` kept distinct from `""`). -/
def analysisCacheKeyL (name : List Char) (website : Option (List Char)) :
    List Char :=
  generateCacheKey "analysis".data
    (analysisDataStr (pyStrip (pyLower name)) website)

/-- `String`-level wrapper of `analysisCacheKeyL`. -/
def analysisCacheKey (name : String) (website : Option String) : List Char :=
  analysisCacheKeyL name.data (website.map String.data)

/-- Analysis modes of the enhanced agent (`AnalysisMode` enum). -/
inductive AnalysisMode where
  | simple : AnalysisMode
  | deep : AnalysisMode
deriving DecidableEq

/-- `AnalysisMode.value`. -/
def AnalysisMode.value : AnalysisMode → String
  | .simple => "simple"
  | .deep => "deep"

/-- The competitor string used by the mode-aware workflow when talking to
the cache: `f"\x7bcompetitor_name\x7d\x7bcache_key_suffix\x7d"` with
`cache_key_suffix = f"_\x7bself.analysis_mode.value\x7d"`. -/
def modesCacheName (mode : AnalysisMode) (name : String) : String :=
  name ++ "_" ++ mode.value

/-- The cache key used by
`EnhancedMultiAgentCompetitiveIntelligenceWithModes
.run_competitive_intelligence_workflow` for a given mode, competitor name
and website. -/
def enhancedCacheKey (mode : AnalysisMode) (name : String)
    (website : Option String) : List Char :=
  analysisCacheKey (modesCacheName mode name) website

/-! ### Injectivity of the serialized fingerprint

The following decoder is a proof device (not part of the embedded
program): it reads back the code points of a JSON string literal body up
to its closing quote.  `decodeJsonStrF_escString` shows it is a left
inverse of `escString`, which yields injectivity of the serialization and
hence of the fingerprint. -/

/-- Value of one lowercase/uppercase hex digit. -/
def hexVal (c : Char) : Option Nat :=
  if 48 ≤ c.toNat ∧ c.toNat ≤ 57 then Option.some (c.toNat - 48)
  else if 97 ≤ c.toNat ∧ c.toNat ≤ 102 then Option.some (c.toNat - 87)
  else if 65 ≤ c.toNat ∧ c.toNat ≤ 70 then Option.some (c.toNat - 55)
  else Option.none

/-- Value of four hex digits. -/
def hexVal4 (a b c d : Char) : Option Nat :=
  match hexVal a, hexVal b, hexVal c, hexVal d with
  | Option.some x, Option.some y, Option.some z, Option.some w =>
      Option.some (((x * 16 + y) * 16 + z) * 16 + w)
  | _, _, _, _ => Option.none

/-- Code points of the short two-character escapes. -/
def decodeEscape (e : Char) : Option Nat :=
  if e = '"' then Option.some 34
  else if e = '\\' then Option.some 92
  else if e = 'b' then Option.some 8
  else if e = 'f' then Option.some 12
  else if e = 'n' then Option.some 10
  else if e = 'r' then Option.some 13
  else if e = 't' then Option.some 9
  else Option.none

/-- One step of the JSON string-literal decoder: either the closing
quote, or one decoded code point plus the remaining input. -/
inductive JsonTok where
  | close (rest : List Char) : JsonTok
  | emit (n : Nat) (rest : List Char) : JsonTok

/-- After a high surrogate `x`, read the `\uXXXX` low surrogate and
combine into one astral code point. -/
def decodeTokLowSurrogate (x : Nat) : List Char → Option JsonTok
  | '\\' :: 'u' :: a :: b :: d :: e :: rest =>
      (match hexVal4 a b d e with
       | Option.some y =>
           if 56320 ≤ y ∧ y < 57344 then
             Option.some (.emit (65536 + (x - 55296) * 1024 + (y - 56320)) rest)
           else Option.none
       | Option.none => Option.none)
  | _ => Option.none

/-- Read the remainder of an escape sequence (after the backslash). -/
def decodeTokAfterBackslash : List Char → Option JsonTok
  | 'u' :: a :: b :: d :: e :: rest =>
      (match hexVal4 a b d e with
       | Option.some x =>
           if 55296 ≤ x ∧ x < 56320 then decodeTokLowSurrogate x rest
           else Option.some (.emit x rest)
       | Option.none => Option.none)
  | e :: rest =>
      (match decodeEscape e with
       | Option.some n => Option.some (.emit n rest)
       | Option.none => Option.none)
  | [] => Option.none

/-- Read one token of a JSON string literal body. -/
def decodeTok : List Char → Option JsonTok
  | [] => Option.none
  | c :: rest =>
    if c = '"' then Option.some (.close rest)
    else if c = '\\' then decodeTokAfterBackslash rest
    else Option.some (.emit c.toNat rest)

/-- Fuelled decoder for the body of a JSON string literal: returns the
decoded code points and the remainder after the closing quote. -/
def decodeJsonStrF : Nat → List Char → Option (List Nat × List Char)
  | 0, _ => Option.none
  | fuel + 1, l =>
    match decodeTok l with
    | Option.some (.close rest) => Option.some ([], rest)
    | Option.some (.emit n rest) =>
        (decodeJsonStrF fuel rest).map fun p => (n :: p.1, p.2)
    | Option.none => Option.none

/-- The last character of the normalized mode-suffixed competitor string:
`'e'` for `..._simple`, `'p'` for `..._deep`. -/
def modeLastChar : AnalysisMode → Char
  | .simple => 'e'
  | .deep => 'p'

/-! ## The Redis cache (`redis_cache.py`) -/

/-- The wrapper object stored by `RedisCache.set`:
`\x7b"data": ..., "cached_at": ..., "ttl": ...\x7d`, serialized with
`json.dumps(cache_data, default=str)` and parsed back by `get`.  The
`data` field goes through `PyVal.jsonSafe`, modelling the `default=str`
serialization round trip. -/
structure CacheData where
  data : PyVal
  cached_at : String
  ttl : Nat

/-- One backend entry: the stored wrapper plus the absolute expiry
deadline installed by `SETEX` (store time plus TTL seconds, on the
millisecond clock). -/
structure RedisEntry where
  value : CacheData
  expiresAt : Nat

/-- Overwrite-insert into an association list (`SETEX` / dict assignment
semantics): the new binding replaces any previous binding of the key. -/
def dinsert {α β : Type} [DecidableEq α] (k : α) (v : β)
    (l : List (α × β)) : List (α × β) :=
  (k, v) :: l.filter fun p => decide (p.1 ≠ k)

/-- The `RedisCache` manager: the enabled flag (`false` models both
`REDIS_ENABLED=false` and an unreachable backend, cf. `_connect`), the
TTL configuration read from the environment, and the backend store. -/
structure RedisCache where
  enabled : Bool
  defaultTtl : Nat
  analysisTtl : Nat
  store : List (List Char × RedisEntry)

/-- `RedisCache.get(key)`: `None` when disabled or on backend error;
otherwise the parsed stored wrapper when the key is present and
unexpired (the backend treats the TTL as authoritative). -/
def RedisCache.get (c : RedisCache) (now : Nat) (key : List Char) :
    Option CacheData :=
  if ¬c.enabled then Option.none
  else match c.store.lookup key with
    | Option.some e =>
        if now < e.expiresAt then Option.some e.value else Option.none
    | Option.none => Option.none

/-- `RedisCache.set(key, data, ttl)`: `False` when disabled; otherwise
`SETEX key (ttl or default) json.dumps(cache_data, default=str)` and
`True`.  Python's `ttl or self.default_ttl` falls back to the default
when `ttl` is `None` or `0` (falsy). -/
def RedisCache.set (c : RedisCache) (now : Nat) (key : List Char)
    (data : PyVal) (ttl : Option Nat) : Bool × RedisCache :=
  if ¬c.enabled then (false, c)
  else
    let t := match ttl with
      | Option.some v => if v ≠ 0 then v else c.defaultTtl
      | Option.none => c.defaultTtl
    let entry : RedisEntry := ⟨⟨data.jsonSafe, isoformat now, t⟩, now + t * 1000⟩
    (true, { c with store := dinsert key entry c.store })

/-- `RedisCache.get_analysis(competitor_name, competitor_website)`:
look up the analysis key and return the wrapper's `data` field. -/
def RedisCache.get_analysis (c : RedisCache) (now : Nat) (name : String)
    (website : Option String) : Option PyVal :=
  match c.get now (analysisCacheKey name website) with
  | Option.some cd => Option.some cd.data
  | Option.none => Option.none

/-- `RedisCache.set_analysis(competitor_name, analysis_result,
competitor_website)`: store under the analysis key with the analysis TTL
tier. -/
def RedisCache.set_analysis (c : RedisCache) (now : Nat) (name : String)
    (result : PyVal) (website : Option String) : Bool × RedisCache :=
  c.set now (analysisCacheKey name website) result (Option.some c.analysisTtl)

/-- A raised Python exception. -/
inductive PyExc where
  | typeError (msg : String) : PyExc
  | error (msg : String) : PyExc

/-- `str(e)` of an exception. -/
def PyExc.message : PyExc → String
  | .typeError m => m
  | .error m => m

/-- Python call semantics for positional arity: calling a function whose
signature admits between `lo` and `hi` positional arguments (counting
`self`) with `given` arguments raises `TypeError` before the body
runs. -/
def callWithArity {α : Type} (lo hi given : Nat) (msg : String)
    (body : Unit → α) : Except PyExc α :=
  if lo ≤ given ∧ given ≤ hi then Except.ok (body ())
  else Except.error (.typeError msg)

/-! ## Metric extraction (`extract_metrics_from_analysis`) -/

/-- Digit run to number (`int` of the matched group). -/
def digitsToNat (l : List Char) : Nat :=
  l.foldl (fun acc c => acc * 10 + (c.toNat - 48)) 0

/-- Best-effort search modelling `re.search(label + r'\s*(\d+)', text)`
(the colon is part of `label` here): the number at the first position
where the whole pattern matches, `None` when it never does. -/
def findLabeledNat (label : List Char) : List Char → Option Nat
  | [] => Option.none
  | c :: rest =>
      if label.isPrefixOf (c :: rest) then
        let after := (c :: rest).drop label.length
        let ds := (after.dropWhile pyIsSpace).takeWhile Char.isDigit
        if ds.isEmpty then findLabeledNat label rest
        else Option.some (digitsToNat ds)
      else findLabeledNat label rest

/-- Optional dictionary entry: present exactly when the regex matched. -/
def optEntry (k : String) (v : Option Nat) : List (String × PyVal) :=
  match v with
  | Option.some n => [(k, PyVal.int (Int.ofNat n))]
  | Option.none => []

/-- `extract_metrics_from_analysis(analysis_text)`: best-effort regex
extraction of competitive metrics and SWOT scores; a missing match is
omitted, never an error (the surrounding `try` swallows everything). -/
def extract_metrics_from_analysis (text : String) : PyVal :=
  let t := text.data
  PyVal.dict
    [("competitive_metrics", PyVal.dict
        (optEntry "threat_level"
            (findLabeledNat "Competitive Threat Level:".data t) ++
         optEntry "market_position"
            (findLabeledNat "Market Position Score:".data t) ++
         optEntry "innovation"
            (findLabeledNat "Innovation Score:".data t) ++
         optEntry "financial_strength"
            (findLabeledNat "Financial Strength:".data t) ++
         optEntry "brand_recognition"
            (findLabeledNat "Brand Recognition:".data t))),
     ("swot_scores", PyVal.dict
        (optEntry "strengths" (findLabeledNat "Strengths:".data t) ++
         optEntry "weaknesses" (findLabeledNat "Weaknesses:".data t) ++
         optEntry "opportunities" (findLabeledNat "Opportunities:".data t) ++
         optEntry "threats" (findLabeledNat "Threats:".data t))),
     ("raw_analysis", PyVal.str text)]

/-! ## The orchestrators

The three agents are external capabilities (spec section 6): each maps a
query string to either a response text (`str(response)`) or a raised
exception.  The prompt bodies are abridged in the query builders — their
exact wording is out of scope (spec sections 1 and 8); what matters to
the claims is which agent is invoked, with which data, and in which
order. -/

/-- The researcher, analyst and writer agents of one orchestrator
instance. -/
structure Agents where
  researcher : String → Except PyExc String
  analyst : String → Except PyExc String
  writer : String → Except PyExc String

/-- `\x7b'Website: ' + competitor_website if competitor_website else ''\x7d`:
empty for `None` and for the empty string (both falsy). -/
def websitePart (w : Option String) : String :=
  match w with
  | Option.some s => if s ≠ "" then "Website: " ++ s else ""
  | Option.none => ""

/-- The mode-specific research query of the enhanced workflow. -/
def researchQuery (m : AnalysisMode) (name : String) (w : Option String) :
    String :=
  match m with
  | .simple => "Perform quick competitive intelligence research for \"" ++
      name ++ "\". " ++ websitePart w ++ " [abridged simple prompt]"
  | .deep => "Perform comprehensive competitive intelligence research for \"" ++
      name ++ "\". " ++ websitePart w ++ " [abridged deep prompt]"

/-- The mode-specific analysis query of the enhanced workflow. -/
def analysisQuery (m : AnalysisMode) (name findings : String) : String :=
  match m with
  | .simple => "Perform quick strategic analysis of these findings for \"" ++
      name ++ "\": " ++ findings ++ " [abridged simple prompt]"
  | .deep => "Perform comprehensive strategic analysis of these findings for \"" ++
      name ++ "\": " ++ findings ++ " [abridged deep prompt]"

/-- The mode-specific report query of the enhanced workflow. -/
def reportQuery (m : AnalysisMode) (name findings analysis : String) :
    String :=
  match m with
  | .simple => "Create a concise competitive intelligence report for \"" ++
      name ++ "\": " ++ findings ++ " " ++ analysis ++ " [abridged simple prompt]"
  | .deep => "Create a comprehensive competitive intelligence report for \"" ++
      name ++ "\": " ++ findings ++ " " ++ analysis ++ " [abridged deep prompt]"

/-- The `website` value placed in result dictionaries (`None` or the
string). -/
def websiteVal : Option String → PyVal
  | Option.some w => PyVal.str w
  | Option.none => PyVal.none

/-- The success record of the enhanced (mode-aware) workflow. -/
def modesSuccessRecord (mode : AnalysisMode) (name : String)
    (website : Option String) (findings analysis report : String)
    (now : Nat) : PyVal :=
  PyVal.dict
    [("competitor", .str name),
     ("website", websiteVal website),
     ("research_findings", .str findings),
     ("strategic_analysis", .str analysis),
     ("final_report", .str report),
     ("metrics", extract_metrics_from_analysis analysis),
     ("timestamp", .str (isoformat now)),
     ("status", .str "success"),
     ("workflow", .str ("multi_agent_" ++ mode.value)),
     ("analysis_mode", .str mode.value)]

/-- The error record of the enhanced workflow (`except` branch): note it
carries no stage outputs, only the error message and request metadata. -/
def modesErrorRecord (mode : AnalysisMode) (name : String)
    (website : Option String) (msg : String) (now : Nat) : PyVal :=
  PyVal.dict
    [("competitor", .str name),
     ("website", websiteVal website),
     ("error", .str msg),
     ("timestamp", .str (isoformat now)),
     ("status", .str "error"),
     ("workflow", .str ("multi_agent_" ++ mode.value)),
     ("analysis_mode", .str mode.value)]

/-- Result of one workflow call: the returned record, the cache state
afterwards, how many times each agent was invoked during the call, and
whether `set_analysis` reported a successful store. -/
structure WorkflowOut where
  record : PyVal
  cache : RedisCache
  researcherCalls : Nat
  analystCalls : Nat
  writerCalls : Nat
  cacheStored : Bool

/-- The `try` block of the enhanced workflow: researcher, analyst (with
metric extraction), writer in sequence; the first raised exception is
caught and returned as an error record; on success the result is cached
under the mode-specific key. -/
def runModesStages (mode : AnalysisMode) (ag : Agents) (cache : RedisCache)
    (now : Nat) (name : String) (website : Option String) : WorkflowOut :=
  match ag.researcher (researchQuery mode name website) with
  | Except.error e =>
      ⟨modesErrorRecord mode name website e.message now, cache, 1, 0, 0, false⟩
  | Except.ok findings =>
    match ag.analyst (analysisQuery mode name findings) with
    | Except.error e =>
        ⟨modesErrorRecord mode name website e.message now, cache, 1, 1, 0, false⟩
    | Except.ok analysis =>
      match ag.writer (reportQuery mode name findings analysis) with
      | Except.error e =>
          ⟨modesErrorRecord mode name website e.message now, cache, 1, 1, 1, false⟩
      | Except.ok report =>
        let result := modesSuccessRecord mode name website findings analysis
          report now
        let sr := cache.set_analysis now (modesCacheName mode name) result
          website
        ⟨result, sr.2, 1, 1, 1, sr.1⟩

/-- `EnhancedMultiAgentCompetitiveIntelligenceWithModes
.run_competitive_intelligence_workflow(competitor_name,
competitor_website)`: check the cache under the mode-suffixed competitor
key and return the cached payload when truthy; otherwise run the three
stages.  Status updates go to the stream callback and are not part of
the returned value. -/
def modesWorkflow (mode : AnalysisMode) (ag : Agents) (cache : RedisCache)
    (now : Nat) (name : String) (website : Option String) : WorkflowOut :=
  match cache.get_analysis now (modesCacheName mode name) website with
  | Option.some cached =>
      if cached.truthy then ⟨cached, cache, 0, 0, 0, false⟩
      else runModesStages mode ag cache now name website
  | Option.none => runModesStages mode ag cache now name website

/-- The niche-specific research query of the base workflow
(`ci_agent.py`); prompt body abridged, niche retained as data. -/
def ciResearchQuery (name : String) (website : Option String)
    (niche : String) : String :=
  "Research competitive intelligence for \"" ++ name ++ "\". " ++
    websitePart website ++ " [niche: " ++ niche ++ "] [abridged prompt]"

/-- The analysis query of the base workflow. -/
def ciAnalysisQuery (name findings : String) : String :=
  "Analyze these competitive intelligence findings for \"" ++ name ++
    "\": " ++ findings ++ " [abridged prompt]"

/-- The report query of the base workflow. -/
def ciReportQuery (name findings analysis : String) : String :=
  "Create a comprehensive competitive intelligence report for \"" ++ name ++
    "\" based on this analysis: " ++ findings ++ " " ++ analysis ++
    " [abridged prompt]"

/-- The success record of the base workflow. -/
def ciSuccessRecord (name : String) (website : Option String)
    (findings analysis report : String) (now : Nat) : PyVal :=
  PyVal.dict
    [("competitor", .str name),
     ("website", websiteVal website),
     ("research_findings", .str findings),
     ("strategic_analysis", .str analysis),
     ("final_report", .str report),
     ("metrics", extract_metrics_from_analysis analysis),
     ("timestamp", .str (isoformat now)),
     ("status", .str "success"),
     ("workflow", .str "multi_agent")]

/-- The error record of the base workflow (`except` branch at
`ci_agent.py:667`). -/
def ciErrorRecord (name : String) (website : Option String) (msg : String)
    (now : Nat) : PyVal :=
  PyVal.dict
    [("competitor", .str name),
     ("website", websiteVal website),
     ("error", .str msg),
     ("timestamp", .str (isoformat now)),
     ("status", .str "error"),
     ("workflow", .str "multi_agent")]

/-- Result of one base-workflow call: `result` is `Except.error` when an
exception escapes the call (nothing catches it), `Except.ok` when a
record is returned. -/
structure CiOut where
  result : Except PyExc PyVal
  cache : RedisCache
  researcherCalls : Nat
  analystCalls : Nat
  writerCalls : Nat

/-- The `TypeError` text raised by
`cache.get_analysis(competitor_name, competitor_website, niche)`:
`RedisCache.get_analysis(self, competitor_name, competitor_website=None)`
admits 2 or 3 positional arguments including `self`, but the call at
`ci_agent.py:437` passes 4. -/
def getAnalysisArityMsg : String :=
  "get_analysis() takes from 2 to 3 positional arguments but 4 were given"

/-- The `TypeError` text raised by `cache.set_analysis(competitor_name,
result, competitor_website, niche)` at `ci_agent.py:659`: the signature
admits 3 or 4 positional arguments including `self`, but 5 are passed. -/
def setAnalysisArityMsg : String :=
  "set_analysis() takes from 3 to 4 positional arguments but 5 were given"

/-- The `try` block of the base workflow: three stages in sequence, then
`cache.set_analysis(competitor_name, result, competitor_website, niche)`
— which itself raises `TypeError` (wrong arity) and is caught by the
surrounding `except`, turning even a fully successful run into an error
record. -/
def ciStages (ag : Agents) (cache : RedisCache) (now : Nat) (name : String)
    (website : Option String) (niche : String) : CiOut :=
  match ag.researcher (ciResearchQuery name website niche) with
  | Except.error e =>
      ⟨Except.ok (ciErrorRecord name website e.message now), cache, 1, 0, 0⟩
  | Except.ok findings =>
    match ag.analyst (ciAnalysisQuery name findings) with
    | Except.error e =>
        ⟨Except.ok (ciErrorRecord name website e.message now), cache, 1, 1, 0⟩
    | Except.ok analysis =>
      match ag.writer (ciReportQuery name findings analysis) with
      | Except.error e =>
          ⟨Except.ok (ciErrorRecord name website e.message now), cache, 1, 1, 1⟩
      | Except.ok report =>
        let result := ciSuccessRecord name website findings analysis report now
        match callWithArity 3 4 5 setAnalysisArityMsg
            (fun _ => cache.set_analysis now name result website) with
        | Except.error e =>
            ⟨Except.ok (ciErrorRecord name website e.message now), cache, 1, 1, 1⟩
        | Except.ok sr => ⟨Except.ok result, sr.2, 1, 1, 1⟩

/-- `MultiAgentCompetitiveIntelligence.run_competitive_intelligence_workflow
(competitor_name, competitor_website, niche)` (`ci_agent.py:430`).  The
cache lookup `cache.get_analysis(competitor_name, competitor_website,
niche)` passes 4 positional arguments (including `self`) to a method
whose signature admits at most 3, raising `TypeError`; the call sits
before the `try` block, so the exception escapes the workflow. -/
def ciWorkflow (ag : Agents) (cache : RedisCache) (now : Nat)
    (name : String) (website : Option String) (niche : String) : CiOut :=
  match callWithArity 2 3 4 getAnalysisArityMsg
      (fun _ => cache.get_analysis now name website) with
  | Except.error e => ⟨Except.error e, cache, 0, 0, 0⟩
  | Except.ok cachedOpt =>
    match cachedOpt with
    | Option.some cached =>
        if cached.truthy then ⟨Except.ok cached, cache, 0, 0, 0⟩
        else ciStages ag cache now name website niche
    | Option.none => ciStages ag cache now name website niche

/-! ## The streaming layer (`app.py`, `enhanced_app_with_modes.py`) -/

/-- The initial `session_start` event yielded by `generate_stream`. -/
def sessionStartEvent (ts : Nat) (sid msg : String) : PyVal :=
  .dict [("timestamp", .str (isoformat ts)),
         ("type", .str "session_start"),
         ("session_id", .str sid),
         ("message", .str msg)]

/-- The keep-alive event sent on a poll timeout. -/
def heartbeatEvent (ts : Nat) : PyVal :=
  .dict [("timestamp", .str (isoformat ts)), ("type", .str "heartbeat")]

/-- The final success event of `run_analysis`. -/
def completeEvent (ts : Nat) (result : PyVal) : PyVal :=
  .dict [("timestamp", .str (isoformat ts)),
         ("type", .str "complete"),
         ("data", result)]

/-- The final failure event of `run_analysis`. -/
def errorEvent (ts : Nat) (msg : String) : PyVal :=
  .dict [("timestamp", .str (isoformat ts)),
         ("type", .str "error"),
         ("message", .str msg)]

/-- The single terminal event `run_analysis` enqueues: `complete` with
the workflow result when the call returned, `error` with `str(e)` when
it raised. -/
def terminalEvent (ts : Nat) (outcome : Except PyExc PyVal) : PyVal :=
  match outcome with
  | Except.ok result => completeEvent ts result
  | Except.error e => errorEvent ts e.message

/-- Whether an event is terminal (`complete` or `error`). -/
def isTerminalEv (e : PyVal) : Bool :=
  match e.lookup "type" with
  | Option.some (PyVal.str s) => s = "complete" || s = "error"
  | _ => false

/-- The progress events produced during a run and handed to
`stream_callback`: status updates from `_send_status_update` and tool
calls from `StreamingCallbackHandler.__call__` (both already
JSON-sanitized by their producers). -/
inductive CbEvent where
  | statusUpdate (ts : Nat) (step msg : String) : CbEvent
  | toolCall (ts : Nat) (toolName : String) (toolInput data : PyVal) : CbEvent

/-- The event dictionary built by each callback producer. -/
def CbEvent.toPyVal : CbEvent → PyVal
  | .statusUpdate ts step msg =>
      .dict [("timestamp", .str (isoformat ts)),
             ("type", .str "status_update"),
             ("step", .str step),
             ("message", .str msg)]
  | .toolCall ts n i d =>
      .dict [("timestamp", .str (isoformat ts)),
             ("type", .str "tool_call"),
             ("tool_name", .str n),
             ("tool_input", i),
             ("data", d)]

/-- Model of `str(json_error)` for the `TypeError`/`ValueError` raised by
`json.dumps` on a non-serializable event. -/
def jsonDumpsErrMsg (event : PyVal) : String :=
  match event with
  | PyVal.blob id => "Object " ++ PyVal.blobStr id ++ " is not JSON serializable"
  | _ => "Object is not JSON serializable"

/-- `event.get("type", "unknown") if isinstance(event, dict) else
"unknown"`. -/
def declaredType (event : PyVal) : PyVal :=
  match event with
  | .dict l =>
      (match l.lookup "type" with
       | Option.some v => v
       | Option.none => .str "unknown")
  | _ => .str "unknown"

/-- The safe fallback event built by `stream_callback` (`app.py:209`)
when an event fails JSON validation: it keeps its own type `tool_call`,
carries the serialization error message and records the original event's
declared type under `original_type`. -/
def fallbackEvent (ts : Nat) (event : PyVal) : PyVal :=
  .dict [("timestamp", .str (isoformat ts)),
         ("type", .str "tool_call"),
         ("message", .str ("Non-serializable event received: " ++
            jsonDumpsErrMsg event)),
         ("original_type", declaredType event)]

/-- `stream_callback(event)` (`app.py:201`): validate `json.dumps(event)`
and enqueue the event; on serialization failure enqueue the safe
fallback instead.  Never raises: the stream is never aborted by a bad
event. -/
def stream_callback (ts : Nat) (event : PyVal) (queue : List PyVal) :
    List PyVal :=
  if event.serializable then queue ++ [event]
  else queue ++ [fallbackEvent ts event]

/-- Python dict item assignment `d[k] = v`: replace the binding in place
when the key is present, append it otherwise (insertion order kept). -/
def dset (l : List (String × PyVal)) (k : String) (v : PyVal) :
    List (String × PyVal) :=
  match l with
  | [] => [(k, v)]
  | (k', v') :: rest =>
      if k' = k then (k, v) :: rest else (k', v') :: dset rest k v

/-- Model of `str(e)` for the `TypeError` raised by
`event["analysis_mode"] = ...` when `event` is not a dict (the type
name of an opaque object is not observable, so the `blob` case keeps
the interpreter's generic phrasing). -/
def itemAssignErrMsg (event : PyVal) : String :=
  match event with
  | .list _ => "list indices must be integers or slices, not str"
  | .none => "'NoneType' object does not support item assignment"
  | .bool _ => "'bool' object does not support item assignment"
  | .int _ => "'int' object does not support item assignment"
  | .str _ => "'str' object does not support item assignment"
  | .blob _ => "object does not support item assignment"
  | .dict _ => ""

/-- The safe fallback event built by the enhanced endpoint's
`stream_callback` (`enhanced_app_with_modes.py:273`): `timestamp`,
`type: "tool_call"`, the serialization error message, the request's
`analysis_mode` and the `enhanced` flag — and, unlike `app.py:209`, no
`original_type` field. -/
def enhancedFallbackEvent (ts : Nat) (mode msg : String) : PyVal :=
  .dict [("timestamp", .str (isoformat ts)),
         ("type", .str "tool_call"),
         ("message", .str ("Non-serializable event: " ++ msg)),
         ("analysis_mode", .str mode),
         ("enhanced", .bool true)]

/-- The enhanced endpoint's `stream_callback(event)`
(`enhanced_app_with_modes.py:265`): first mutate the event with
`event["analysis_mode"] = request.analysis_mode` (a `TypeError` for a
non-dict event, caught by the same handler), then validate
`json.dumps(event)` and enqueue the mutated event; on failure enqueue
the enhanced safe fallback instead.  Never raises. -/
def enhanced_stream_callback (ts : Nat) (mode : String) (event : PyVal)
    (queue : List PyVal) : List PyVal :=
  match event with
  | .dict l =>
      let ev2 := PyVal.dict (dset l "analysis_mode" (.str mode))
      if ev2.serializable then queue ++ [ev2]
      else queue ++ [enhancedFallbackEvent ts mode (jsonDumpsErrMsg ev2)]
  | _ => queue ++ [enhancedFallbackEvent ts mode (itemAssignErrMsg event)]

/-! ### The per-run event stream as a transition system

`run_analysis` and the drain loop of `generate_stream` communicate only
through `events_queue`.  The producer enqueues the terminal event and the
`None` sentinel with no suspension point between the two `await
queue.put` calls (an `asyncio.Queue.put` on a non-full queue does not
yield), so they always enter the queue adjacently.  Progress events are
enqueued via `asyncio.create_task(queue.put(...))`; depending on
scheduling they land either before the terminal batch or after the
sentinel — both placements are covered below (`pre` and `post`).  The
consumer delivers queued events in FIFO order, emits a heartbeat only
when the queue is empty at a poll timeout, and stops at the sentinel. -/
structure StreamState where
  batches : List (List (Option PyVal))
  queue : List (Option PyVal)
  emitted : List PyVal
  closed : Bool

/-- One scheduling step of the producer/consumer pair. -/
inductive StreamStep : StreamState → StreamState → Prop where
  | produce (b : List (Option PyVal)) (bs : List (List (Option PyVal)))
      (q : List (Option PyVal)) (em : List PyVal) :
      StreamStep ⟨b :: bs, q, em, false⟩ ⟨bs, q ++ b, em, false⟩
  | deliver (bs : List (List (Option PyVal))) (e : PyVal)
      (q : List (Option PyVal)) (em : List PyVal) :
      StreamStep ⟨bs, Option.some e :: q, em, false⟩ ⟨bs, q, em ++ [e], false⟩
  | finish (bs : List (List (Option PyVal))) (q : List (Option PyVal))
      (em : List PyVal) :
      StreamStep ⟨bs, Option.none :: q, em, false⟩ ⟨bs, q, em, true⟩
  | timeout (ts : Nat) (bs : List (List (Option PyVal))) (em : List PyVal) :
      StreamStep ⟨bs, [], em, false⟩ ⟨bs, [], em ++ [heartbeatEvent ts], false⟩

/-- Reachability under `StreamStep`. -/
inductive StreamReach (s0 : StreamState) : StreamState → Prop where
  | refl : StreamReach s0 s0
  | tail {s s' : StreamState} :
      StreamReach s0 s → StreamStep s s' → StreamReach s0 s'

/-- The initial state of one streaming run: the `session_start` event has
been yielded; the producer will enqueue the progress events (`pre`, one
batch each), then atomically the terminal event followed by the sentinel,
then any late `create_task` deliveries (`post`). -/
def streamInit (sid : String) (ts : Nat) (name : String)
    (pre : List CbEvent) (post : List PyVal)
    (outcome : Except PyExc PyVal) : StreamState :=
  ⟨(pre.map fun cb => [Option.some cb.toPyVal]) ++
     [[Option.some (terminalEvent ts outcome), Option.none]] ++
     post.map (fun e => [Option.some e]),
   [],
   [sessionStartEvent ts sid ("Starting analysis for " ++ name)],
   false⟩

/-! ### Session identifiers and the shared session table -/

/-- Deterministic rendering of `datetime.now().strftime('%Y%m%d_%H%M%S')`
for the wall-clock second `sec`. -/
def strftimeSec (sec : Nat) : String := "t" ++ toString sec

/-- The session id of `/analyze/stream` (`app.py:187`):
`f"session_\x7b...strftime...\x7d_\x7bcompetitor_name.replace(' ', '_')\x7d"`,
a function of the wall-clock second and the competitor name only. -/
def sessionId (nowMs : Nat) (name : String) : String :=
  "session_" ++ strftimeSec (nowMs / 1000) ++ "_" ++
    String.mk (pyReplaceSpace name.data)

/-- The session id of `/analyze/enhanced/stream`
(`enhanced_app_with_modes.py:250`), which additionally embeds the
requested mode string. -/
def enhancedSessionId (mode : String) (nowMs : Nat) (name : String) :
    String :=
  "enhanced_" ++ mode ++ "_session_" ++ strftimeSec (nowMs / 1000) ++ "_" ++
    String.mk (pyReplaceSpace name.data)

/-- The session record inserted into `streaming_sessions` when a
streaming run begins. -/
def sessionRecord (ts : Nat) (name : String) : PyVal :=
  .dict [("start_time", .str (isoformat ts)),
         ("competitor", .str name),
         ("status", .str "running")]

/-! ### The enhanced non-streaming endpoint
(`analyze_competitor_enhanced`, `enhanced_app_with_modes.py:181`) -/

/-- `AnalysisMode(request.analysis_mode.lower())`: the enum constructor
succeeds exactly on `"simple"` and `"deep"` (after lower-casing). -/
def parseAnalysisMode (s : String) : Option AnalysisMode :=
  if String.mk (pyLower s.data) = "simple" then Option.some .simple
  else if String.mk (pyLower s.data) = "deep" then Option.some .deep
  else Option.none

/-- A raised `fastapi.HTTPException`. -/
inductive HTTPExc where
  | http (status : Nat) (detail : String) : HTTPExc

/-- `str(e)` for an `HTTPException` (status and detail). -/
def strHTTPExc : HTTPExc → String
  | .http s d => toString s ++ ": " ++ d

/-- The 400 detail built at `enhanced_app_with_modes.py:195`. -/
def invalidModeDetail (m : String) : String :=
  "Invalid analysis mode: " ++ m ++ ". Must be 'simple' or 'deep'"

/-- The request body of the enhanced analysis endpoints. -/
structure EnhancedRequest where
  competitor_name : String
  competitor_website : Option String
  analysis_mode : String
  stream : Bool

/-- The 500 detail for a failed workflow:
`result.get("error", f"... analysis failed")` (title-casing of the mode
in the default message elided). -/
def errDetail (result : PyVal) (mode : String) : String :=
  match result.lookup "error" with
  | Option.some (PyVal.str e) => e
  | _ => mode ++ " analysis failed"

/-- `analyze_competitor_enhanced(request)`, returning the HTTP status
code and response detail.  The whole body sits in a `try` whose
`except Exception` re-raises everything as `HTTPException(500, str(e))` —
`fastapi.HTTPException` is itself an `Exception` subclass, so the 400
raised for an invalid mode and the 500 raised for a failed run are both
caught there and re-raised as 500 with the stringified original
exception as detail.  `wf` gives the workflow result for the validated
mode. -/
def analyze_competitor_enhanced (req : EnhancedRequest)
    (wf : AnalysisMode → PyVal) : Nat × String :=
  match parseAnalysisMode req.analysis_mode with
  | Option.none =>
      (500, strHTTPExc (.http 400 (invalidModeDetail req.analysis_mode)))
  | Option.some m =>
      let result := wf m
      match result.lookup "status" with
      | Option.some (PyVal.str s) =>
          if s = "error" then
            (500, strHTTPExc (.http 500 (errDetail result req.analysis_mode)))
          else (200, "EnhancedAnalysisResponse")
      | _ => (200, "EnhancedAnalysisResponse")

/-- Whether the backend holds a live (unexpired) entry at `key` at time
`t`. -/
def cacheEntryLive (c : RedisCache) (key : List Char) (t : Nat) : Bool :=
  match c.store.lookup key with
  | Option.some e => decide (t < e.expiresAt)
  | Option.none => false

/-! ## Claim C7 — exactly one terminal event, sentinel-terminated stream -/

def countTerm (l : List PyVal) : Nat := l.countP isTerminalEv

/-- Queue-segment wellformedness: only real, non-terminal events (no
sentinel). -/
def entriesOk (q : List (Option PyVal)) : Prop :=
  ∀ x ∈ q, ∃ e, x = Option.some e ∧ isTerminalEv e = false

/-- Batch-list wellformedness: every batch consists of real, non-terminal
events. -/
def batchesOk (bs : List (List (Option PyVal))) : Prop :=
  ∀ b ∈ bs, entriesOk b

/-- Invariant of a streaming run whose terminal event is `T`.  Phase 1:
the terminal/sentinel pair is still among the pending batches and nothing
terminal has been emitted.  Phase 2: the pair sits in the queue behind
well-formed events only.  Phase 3: the terminal event has just been
emitted (as the last emitted event) and the sentinel is at the head of
the queue.  Phase 4: the stream is closed with the terminal event last. -/
def StreamInv (T : PyVal) (s : StreamState) : Prop :=
  (s.closed = false ∧ countTerm s.emitted = 0 ∧ entriesOk s.queue ∧
    ∃ bs1 bs2, s.batches = bs1 ++ ([Option.some T, Option.none] :: bs2) ∧
      batchesOk bs1) ∨
  (s.closed = false ∧ countTerm s.emitted = 0 ∧
    ∃ q1 q2, s.queue = q1 ++ Option.some T :: Option.none :: q2 ∧
      entriesOk q1) ∨
  (s.closed = false ∧ (∃ em, s.emitted = em ++ [T] ∧ countTerm em = 0) ∧
    ∃ q2, s.queue = Option.none :: q2) ∨
  (s.closed = true ∧ ∃ em, s.emitted = em ++ [T] ∧ countTerm em = 0)

/-! # Theorems -/

mutual

theorem PyVal.jsonSafe_of_serializable :
    (v : PyVal) → v.serializable = true → v.jsonSafe = v
  | .none, _ => rfl
  | .bool _, _ => rfl
  | .int _, _ => rfl
  | .str _, _ => rfl
  | .blob _, h => by simp [PyVal.serializable] at h
  | .list l, h => by
      rw [PyVal.jsonSafe, PyVal.jsonSafeList_of_serializable l (by
        rw [PyVal.serializable] at h; exact h)]
  | .dict l, h => by
      rw [PyVal.jsonSafe, PyVal.jsonSafeDict_of_serializable l (by
        rw [PyVal.serializable] at h; exact h)]

theorem PyVal.jsonSafeList_of_serializable :
    (l : List PyVal) → PyVal.serializableList l = true → PyVal.jsonSafeList l = l
  | [], _ => rfl
  | x :: xs, h => by
      rw [PyVal.serializableList, Bool.and_eq_true] at h
      rw [PyVal.jsonSafeList, PyVal.jsonSafe_of_serializable x h.1,
        PyVal.jsonSafeList_of_serializable xs h.2]

theorem PyVal.jsonSafeDict_of_serializable :
    (l : List (String × PyVal)) → PyVal.serializableDict l = true →
      PyVal.jsonSafeDict l = l
  | [], _ => rfl
  | (k, v) :: xs, h => by
      rw [PyVal.serializableDict, Bool.and_eq_true] at h
      rw [PyVal.jsonSafeDict, PyVal.jsonSafe_of_serializable v h.1,
        PyVal.jsonSafeDict_of_serializable xs h.2]

end

theorem Char.toNat_ofNat_of_valid {n : Nat} (h : n.isValidChar) :
    (Char.ofNat n).toNat = n := by
  rw [Char.ofNat, dif_pos h]
  rfl

/-- Lowercasing does not change whether a character is whitespace. -/
theorem pyIsSpace_pyToLower (c : Char) :
    pyIsSpace (pyToLower c) = pyIsSpace c := by
  unfold pyToLower pyIsSpace
  split
  · next h =>
      have hva : (c.toNat + 32).isValidChar := Or.inl (by omega)
      rw [Char.toNat_ofNat_of_valid hva]
      simp only [decide_eq_decide]
      omega
  · rfl

theorem Char.toNat_injective {a b : Char} (h : a.toNat = b.toNat) : a = b :=
  Char.ext (UInt32.ext h)

/-- The Nat-level validity of any `Char`: its code point is not a
surrogate and is below `0x110000`. -/
theorem Char.toNat_valid (c : Char) :
    c.toNat < 55296 ∨ (57343 < c.toNat ∧ c.toNat < 1114112) := c.valid

theorem hexVal_hexDig (n : Nat) (h : n < 16) : hexVal (hexDig n) = Option.some n := by
  interval_cases n <;> rfl

theorem hexVal4_hex4 (n : Nat) (h : n < 65536) :
    hexVal4 (hexDig (n / 4096 % 16)) (hexDig (n / 256 % 16))
      (hexDig (n / 16 % 16)) (hexDig (n % 16)) = Option.some n := by
  simp only [hexVal4, hexVal_hexDig _ (Nat.mod_lt _ (by omega : (0:Nat) < 16)),
    Option.some.injEq]
  omega

theorem decodeTok_quote (X : List Char) :
    decodeTok ('"' :: X) = Option.some (.close X) := rfl

theorem decodeTok_bs (rest : List Char) :
    decodeTok ('\\' :: rest) = decodeTokAfterBackslash rest := rfl

theorem decodeTokAB_u (a b d e : Char) (X : List Char) :
    decodeTokAfterBackslash ('u' :: a :: b :: d :: e :: X) =
      (match hexVal4 a b d e with
       | Option.some x =>
           if 55296 ≤ x ∧ x < 56320 then decodeTokLowSurrogate x X
           else Option.some (.emit x X)
       | Option.none => Option.none) := rfl

theorem decodeTokLS_u (x : Nat) (a b d e : Char) (X : List Char) :
    decodeTokLowSurrogate x ('\\' :: 'u' :: a :: b :: d :: e :: X) =
      (match hexVal4 a b d e with
       | Option.some y =>
           if 56320 ≤ y ∧ y < 57344 then
             Option.some (.emit (65536 + (x - 55296) * 1024 + (y - 56320)) X)
           else Option.none
       | Option.none => Option.none) := rfl

/-- `decodeTok` undoes `escChar`: the escape of any character decodes to
exactly that character's code point, leaving the remaining input
untouched. -/
theorem decodeTok_escChar (c : Char) (X : List Char) :
    decodeTok (escChar c ++ X) = Option.some (.emit c.toNat X) := by
  have hv := Char.toNat_valid c
  unfold escChar
  split_ifs with h1 h2 h3 h4 h5 h6 h7 h8 h9
  · rw [h1]; rfl
  · rw [h2]; rfl
  · rw [h3]; rfl
  · rw [h4]; rfl
  · rw [h5]; rfl
  · rw [h6]; rfl
  · rw [h7]; rfl
  · -- plain printable ASCII character (not quote, not backslash)
    have hq : ¬(c = '"') := fun e => h1 (by rw [e]; rfl)
    have hb : ¬(c = '\\') := fun e => h2 (by rw [e]; rfl)
    show decodeTok (c :: X) = Option.some (.emit c.toNat X)
    simp only [decodeTok]
    rw [if_neg hq, if_neg hb]
  · -- BMP code point rendered as a single \uXXXX escape
    show decodeTok ('\\' :: 'u' :: hexDig (c.toNat / 4096 % 16) ::
      hexDig (c.toNat / 256 % 16) :: hexDig (c.toNat / 16 % 16) ::
      hexDig (c.toNat % 16) :: X) = Option.some (.emit c.toNat X)
    rw [decodeTok_bs, decodeTokAB_u, hexVal4_hex4 _ h9]
    simp only
    rw [if_neg (show ¬(55296 ≤ c.toNat ∧ c.toNat < 56320) by omega)]
  · -- astral code point rendered as a surrogate pair
    have hge : 65536 ≤ c.toNat := by omega
    have hlt : c.toNat < 1114112 := by omega
    simp only [hex4, List.cons_append, List.append_assoc, List.nil_append]
    show decodeTok ('\\' :: 'u' :: _ :: _ :: _ :: _ ::
      ('\\' :: 'u' :: _ :: _ :: _ :: _ :: X)) = Option.some (.emit c.toNat X)
    rw [decodeTok_bs, decodeTokAB_u,
      hexVal4_hex4 _ (show 55296 + (c.toNat - 65536) / 1024 < 65536 by omega)]
    simp only
    rw [if_pos (show 55296 ≤ 55296 + (c.toNat - 65536) / 1024 ∧
          55296 + (c.toNat - 65536) / 1024 < 56320 by omega),
      decodeTokLS_u,
      hexVal4_hex4 _ (show 56320 + (c.toNat - 65536) % 1024 < 65536 by omega)]
    simp only
    rw [if_pos (show 56320 ≤ 56320 + (c.toNat - 65536) % 1024 ∧
          56320 + (c.toNat - 65536) % 1024 < 57344 by omega),
      show 65536 + (55296 + (c.toNat - 65536) / 1024 - 55296) * 1024 +
          (56320 + (c.toNat - 65536) % 1024 - 56320) = c.toNat by omega]

/-- The decoder is a left inverse of `escString` (given enough fuel):
reading the escaped body back yields exactly the original code points and
the input following the closing quote. -/
theorem decodeJsonStrF_escString :
    ∀ (s X : List Char) (fuel : Nat), s.length < fuel →
      decodeJsonStrF fuel (escString s ++ '"' :: X) =
        Option.some (s.map Char.toNat, X) := by
  intro s
  induction s with
  | nil =>
      intro X fuel hf
      obtain ⟨f, rfl⟩ : ∃ f, fuel = f + 1 := ⟨fuel - 1, by omega⟩
      rw [escString, List.nil_append]
      simp only [decodeJsonStrF]
      rw [decodeTok_quote]
      rfl
  | cons c t ih =>
      intro X fuel hf
      obtain ⟨f, rfl⟩ : ∃ f, fuel = f + 1 := ⟨fuel - 1, by omega⟩
      rw [escString, List.append_assoc]
      simp only [decodeJsonStrF]
      rw [decodeTok_escChar]
      simp only
      rw [ih X f (by simp only [List.length_cons] at hf; omega)]
      simp only [Option.map_some', List.map_cons]

/-- Injectivity of the escaped body followed by a closing quote. -/
theorem escString_quote_inj {s1 s2 r1 r2 : List Char}
    (h : escString s1 ++ '"' :: r1 = escString s2 ++ '"' :: r2) :
    s1 = s2 ∧ r1 = r2 := by
  have e1 := decodeJsonStrF_escString s1 r1 (s1.length + s2.length + 1)
    (by omega)
  have e2 := decodeJsonStrF_escString s2 r2 (s1.length + s2.length + 1)
    (by omega)
  rw [h, e2] at e1
  simp only [Option.some.injEq, Prod.mk.injEq] at e1
  have hinj : Function.Injective Char.toNat := fun a b hab =>
    Char.toNat_injective hab
  exact ⟨(List.map_injective_iff.mpr hinj e1.1).symm, e1.2.symm⟩

/-- Injectivity of the serialized fingerprint dict: equal serializations
force equal competitor fields and equal website fields (`None` kept
distinct from any string, strings compared exactly). -/
theorem analysisDataStr_inj {c1 c2 : List Char} {w1 w2 : Option (List Char)}
    (h : analysisDataStr c1 w1 = analysisDataStr c2 w2) :
    c1 = c2 ∧ w1 = w2 := by
  unfold analysisDataStr at h
  have h1 := List.append_cancel_left h
  obtain ⟨hc, hrest⟩ := escString_quote_inj h1
  have h2 := List.append_cancel_left hrest
  have h3 := List.append_cancel_right h2
  refine ⟨hc, ?_⟩
  match w1, w2 with
  | Option.none, Option.none => rfl
  | Option.none, Option.some b =>
      rw [show websiteJson Option.none = 'n' :: "ull".data from rfl] at h3
      rw [show websiteJson (Option.some b) = '"' :: (escString b ++ ['"'])
        from rfl] at h3
      injection h3 with h4
      exact absurd h4 (by decide)
  | Option.some a, Option.none =>
      rw [show websiteJson Option.none = 'n' :: "ull".data from rfl] at h3
      rw [show websiteJson (Option.some a) = '"' :: (escString a ++ ['"'])
        from rfl] at h3
      injection h3 with h4
      exact absurd h4 (by decide)
  | Option.some a, Option.some b =>
      rw [show websiteJson (Option.some a) = '"' :: (escString a ++ ['"'])
        from rfl] at h3
      rw [show websiteJson (Option.some b) = '"' :: (escString b ++ ['"'])
        from rfl] at h3
      injection h3 with _ h4
      rw [show (['"'] : List Char) = '"' :: [] from rfl] at h4
      obtain ⟨hab, -⟩ := escString_quote_inj h4
      rw [hab]

/-- Injectivity of the full analysis cache key: equal keys force equal
normalized competitor names and equal website values. -/
theorem analysisCacheKeyL_inj {n1 n2 : List Char} {w1 w2 : Option (List Char)}
    (h : analysisCacheKeyL n1 w1 = analysisCacheKeyL n2 w2) :
    pyStrip (pyLower n1) = pyStrip (pyLower n2) ∧ w1 = w2 := by
  unfold analysisCacheKeyL generateCacheKey md5Hexdigest at h
  have h1 := List.append_cancel_left h
  injection h1 with _ h3
  exact analysisDataStr_inj h3

theorem pyIsSpace_comp_pyToLower : (pyIsSpace ∘ pyToLower) = pyIsSpace :=
  funext pyIsSpace_pyToLower

/-- Lower-casing and stripping commute, so "lower then strip" (the code)
agrees with "trim then lowercase" (the spec's phrasing). -/
theorem pyStrip_pyLower_comm (l : List Char) :
    pyStrip (pyLower l) = pyLower (pyStrip l) := by
  unfold pyStrip dropWhileRight pyLower
  rw [List.dropWhile_map, pyIsSpace_comp_pyToLower, ← List.map_reverse,
    List.dropWhile_map, pyIsSpace_comp_pyToLower, ← List.map_reverse]

theorem stripRight_getLast {l : List Char} {c : Char}
    (hl : l.getLast? = Option.some c) (hc : pyIsSpace c = false) :
    ((l.reverse.dropWhile pyIsSpace).reverse).getLast? = Option.some c := by
  obtain ⟨l', rfl⟩ := List.getLast?_eq_some_iff.mp hl
  rw [List.reverse_append, List.reverse_singleton, List.singleton_append,
    List.dropWhile_cons]
  rw [hc]
  simp only [Bool.false_eq_true, if_false, List.reverse_cons]
  exact List.getLast?_concat _

/-- Stripping a string that ends with a suffix whose first and last
characters are non-whitespace keeps the suffix's last character as the
last character of the result. -/
theorem pyStrip_append_getLast (x : List Char) (h0 : Char) (ts : List Char)
    (c : Char) (hh : pyIsSpace h0 = false)
    (hs : (h0 :: ts).getLast? = Option.some c) (hc : pyIsSpace c = false) :
    (pyStrip (x ++ h0 :: ts)).getLast? = Option.some c := by
  unfold pyStrip dropWhileRight
  rw [List.dropWhile_append]
  split
  · rw [List.dropWhile_cons, hh]
    simp only [Bool.false_eq_true, if_false]
    exact stripRight_getLast hs hc
  · exact stripRight_getLast
      (by rw [List.getLast?_append, hs]; rfl) hc

theorem modes_norm_getLast (m : AnalysisMode) (n : String) :
    (pyStrip (pyLower (modesCacheName m n).data)).getLast? =
      Option.some (modeLastChar m) := by
  cases m
  case simple =>
    rw [show (modesCacheName AnalysisMode.simple n).data =
        n.data ++ ('_' :: "simple".data) by
      unfold modesCacheName AnalysisMode.value
      rw [String.data_append, String.data_append, List.append_assoc]
      rfl]
    unfold pyLower
    rw [List.map_append,
      show ('_' :: "simple".data).map pyToLower = '_' :: "simple".data
        from rfl]
    exact pyStrip_append_getLast _ '_' "simple".data 'e' (by decide)
      (by rfl) (by decide)
  case deep =>
    rw [show (modesCacheName AnalysisMode.deep n).data =
        n.data ++ ('_' :: "deep".data) by
      unfold modesCacheName AnalysisMode.value
      rw [String.data_append, String.data_append, List.append_assoc]
      rfl]
    unfold pyLower
    rw [List.map_append,
      show ('_' :: "deep".data).map pyToLower = '_' :: "deep".data
        from rfl]
    exact pyStrip_append_getLast _ '_' "deep".data 'p' (by decide)
      (by rfl) (by decide)

/-- Different analysis modes always produce different cache keys for the
same competitor name and website. -/
theorem enhancedCacheKey_mode_ne {m1 m2 : AnalysisMode} (hm : m1 ≠ m2)
    (n : String) (w : Option String) :
    enhancedCacheKey m1 n w ≠ enhancedCacheKey m2 n w := by
  intro h
  unfold enhancedCacheKey analysisCacheKey at h
  have h2 := (analysisCacheKeyL_inj h).1
  have g1 := modes_norm_getLast m1 n
  have g2 := modes_norm_getLast m2 n
  rw [h2, g2] at g1
  cases m1 <;> cases m2 <;> simp_all [modeLastChar]

/-! ## Supporting lemmas -/

theorem lookup_dinsert {α β : Type} [DecidableEq α] [BEq α] [LawfulBEq α]
    (k : α) (v : β) (l : List (α × β)) :
    (dinsert k v l).lookup k = Option.some v := by
  unfold dinsert
  simp [List.lookup]

theorem dinsert_mem_eq {α β : Type} [DecidableEq α] (k : α) (v w : β)
    (l : List (α × β)) (h : (k, w) ∈ dinsert k v l) : w = v := by
  unfold dinsert at h
  rcases List.mem_cons.mp h with h1 | h1
  · exact congrArg Prod.snd h1
  · have := (List.mem_filter.mp h1).2
    simp at this

/-! ## Claim C4 — cache read-your-write round trip -/

/-- **C4.**  For every cache state, fingerprint (competitor name and
optional website) and JSON-serializable payload: a `set_analysis` call
returning `True`, followed by a `get_analysis` of the same name and
website before the entry's TTL deadline (no intervening expiry; the
backend availability is part of the same cache state), returns the
just-stored payload unchanged. -/
theorem claim_C4_cache_roundtrip (c : RedisCache) (now later : Nat)
    (name : String) (website : Option String) (payload : PyVal)
    (hser : payload.serializable = true)
    (hset : (c.set_analysis now name payload website).1 = true)
    (hfresh : later < now +
      (if c.analysisTtl ≠ 0 then c.analysisTtl else c.defaultTtl) * 1000) :
    ((c.set_analysis now name payload website).2).get_analysis later name
      website = Option.some payload := by
  unfold RedisCache.set_analysis RedisCache.set at hset ⊢
  by_cases he : c.enabled
  · simp only [he, not_true_eq_false, if_false]
    unfold RedisCache.get_analysis RedisCache.get
    simp only [he, not_true_eq_false, if_false]
    rw [lookup_dinsert]
    simp only
    rw [if_pos (by exact hfresh)]
    rw [PyVal.jsonSafe_of_serializable payload hser]
  · simp [he] at hset

/-- Concrete witness for C4: a fresh enabled cache, payload
`\x7b"x": 1\x7d`, stored at time 0 and read back at time 1. -/
theorem claim_C4_witness :
    (PyVal.dict [("x", PyVal.int 1)]).serializable = true ∧
    ((⟨true, 3600, 86400, []⟩ : RedisCache).set_analysis 0 "Acme"
      (PyVal.dict [("x", PyVal.int 1)]) Option.none).1 = true ∧
    (((⟨true, 3600, 86400, []⟩ : RedisCache).set_analysis 0 "Acme"
      (PyVal.dict [("x", PyVal.int 1)]) Option.none).2).get_analysis 1 "Acme"
      Option.none = Option.some (PyVal.dict [("x", PyVal.int 1)]) :=
  ⟨by simp [PyVal.serializable, PyVal.serializableDict], rfl,
    claim_C4_cache_roundtrip _ 0 1 "Acme" Option.none _
      (by simp [PyVal.serializable, PyVal.serializableDict]) rfl (by decide)⟩

/-! ## Claim C2 — the base workflow's cache lookup raises out of the call -/

/-- **C2 (divergence).**  For every input,
`MultiAgentCompetitiveIntelligence.run_competitive_intelligence_workflow`
raises `TypeError` out of the call: `cache.get_analysis(competitor_name,
competitor_website, niche)` (`ci_agent.py:437`) passes four positional
arguments (including `self`) to a signature admitting at most three,
and the call sits before the `try` block, so nothing catches it — no run
record is returned, no stage runs, and the cache is untouched.  This
contradicts the claim that all per-run failures are captured into the
run record as data. -/
theorem claim_C2_base_workflow_raises (ag : Agents) (cache : RedisCache)
    (now : Nat) (name : String) (website : Option String) (niche : String) :
    ciWorkflow ag cache now name website niche =
      ⟨Except.error (.typeError getAnalysisArityMsg), cache, 0, 0, 0⟩ := rfl

/-! ## Claim C9 — invalid analysis mode answered with 500, not 400 -/

/-- **C9 (divergence).**  A request to `/analyze/enhanced` whose
`analysis_mode` is invalid (here `"fast"`) is answered with HTTP 500 for
every possible workflow behaviour: the endpoint does construct
`HTTPException(status_code=400, ...)`, but raises it inside the `try`
whose `except Exception` re-raises everything as
`HTTPException(500, str(e))`, so the client observes 500 — not the 400
the claim (and the code's own intent) requires. -/
theorem claim_C9_invalid_mode_is_500 (wf : AnalysisMode → PyVal) :
    analyze_competitor_enhanced ⟨"Acme", Option.none, "fast", false⟩ wf =
      (500, strHTTPExc (.http 400 (invalidModeDetail "fast"))) ∧
    (analyze_competitor_enhanced ⟨"Acme", Option.none, "fast", false⟩ wf).1
      ≠ 400 := by
  constructor
  · rfl
  · intro h
    rw [show analyze_competitor_enhanced ⟨"Acme", Option.none, "fast", false⟩
        wf = (500, strHTTPExc (.http 400 (invalidModeDetail "fast")))
        from rfl] at h
    simp at h

/-! ## Claim C10 — session ids collide within a second and overwrite -/

/-- **C10.**  The session id of `/analyze/stream` is a deterministic
function of the wall-clock second and the competitor name (spaces
replaced by underscores) only: two streaming requests for the same name
within the same second get the same id, and the second session record
overwrites the first in the shared `streaming_sessions` table — after
both insertions the id maps to the second record and no binding of the
first record remains. -/
theorem claim_C10_session_id_collision (t1 t2 : Nat) (name : String)
    (v1 v2 : PyVal) (table : List (String × PyVal))
    (hsec : t1 / 1000 = t2 / 1000) :
    sessionId t1 name = sessionId t2 name ∧
    (dinsert (sessionId t2 name) v2
      (dinsert (sessionId t1 name) v1 table)).lookup (sessionId t1 name) =
      Option.some v2 ∧
    (∀ w, (sessionId t1 name, w) ∈
      dinsert (sessionId t2 name) v2 (dinsert (sessionId t1 name) v1 table) →
      w = v2) := by
  have hid : sessionId t1 name = sessionId t2 name := by
    unfold sessionId
    rw [hsec]
  refine ⟨hid, ?_, ?_⟩
  · rw [hid, lookup_dinsert]
  · intro w hw
    rw [hid] at hw
    exact dinsert_mem_eq _ _ _ _ hw

/-- Concrete witness for C10: two requests for `"Acme Corp"` at 1500 ms
and 1999 ms (same wall-clock second). -/
theorem claim_C10_witness :
    sessionId 1500 "Acme Corp" = sessionId 1999 "Acme Corp" ∧
    (dinsert (sessionId 1999 "Acme Corp") (PyVal.str "second")
      (dinsert (sessionId 1500 "Acme Corp") (PyVal.str "first")
        [])).lookup (sessionId 1500 "Acme Corp") =
      Option.some (PyVal.str "second") ∧
    (∀ w, (sessionId 1500 "Acme Corp", w) ∈
      dinsert (sessionId 1999 "Acme Corp") (PyVal.str "second")
        (dinsert (sessionId 1500 "Acme Corp") (PyVal.str "first") []) →
      w = PyVal.str "second") :=
  claim_C10_session_id_collision 1500 1999 "Acme Corp" _ _ [] (by decide)

/-! ## Claim C8 — non-serializable events never abort the stream, but
only the basic endpoint's fallback records the original type -/

/-- **C8 (counterexample).**  At the claim's cited enhanced site
(`enhanced_app_with_modes.py:265-282`): a non-serializable `tool_call`
event is replaced by the enhanced safe fallback, which carries the
error message, the analysis mode and the `enhanced` flag — but NO
`original_type` field at all, refuting "the fallback carries the
original event's declared type" for that endpoint. -/
theorem claim_C8_counterexample :
    enhanced_stream_callback 0 "simple"
        (PyVal.dict [("type", PyVal.str "tool_call"),
          ("payload", PyVal.blob 7)]) [] =
      [enhancedFallbackEvent 0 "simple" "Object is not JSON serializable"] ∧
    (enhancedFallbackEvent 0 "simple"
      "Object is not JSON serializable").lookup "original_type" =
      Option.none ∧
    (enhancedFallbackEvent 0 "simple"
      "Object is not JSON serializable").lookup "message" =
      Option.some (.str
        ("Non-serializable event: " ++ "Object is not JSON serializable")) :=
  ⟨rfl, rfl, rfl⟩

/-- **C8 (amended).**  For every progress event (a dict) that
`json.dumps` cannot serialize — in the enhanced endpoint, after the
`analysis_mode` key has been written into it — neither streaming
endpoint aborts or drops the tick: each `stream_callback` replaces the
event on the queue by its safe fallback carrying the serialization
error message.  The basic endpoint's fallback (`app.py:209`)
additionally records the original event's declared type under
`original_type`; the enhanced endpoint's fallback
(`enhanced_app_with_modes.py:273`) records the analysis mode and the
`enhanced` flag instead and has no `original_type` field. -/
theorem claim_C8_fallback_event (ts : Nat) (mode : String)
    (l : List (String × PyVal)) (queue : List PyVal)
    (hns : (PyVal.dict l).serializable = false)
    (hns2 : (PyVal.dict (dset l "analysis_mode"
      (PyVal.str mode))).serializable = false) :
    stream_callback ts (PyVal.dict l) queue =
      queue ++ [fallbackEvent ts (PyVal.dict l)] ∧
    (fallbackEvent ts (PyVal.dict l)).lookup "message" =
      Option.some (.str ("Non-serializable event received: " ++
        jsonDumpsErrMsg (PyVal.dict l))) ∧
    (fallbackEvent ts (PyVal.dict l)).lookup "original_type" =
      Option.some (declaredType (PyVal.dict l)) ∧
    enhanced_stream_callback ts mode (PyVal.dict l) queue =
      queue ++ [enhancedFallbackEvent ts mode
        (jsonDumpsErrMsg (PyVal.dict (dset l "analysis_mode"
          (PyVal.str mode))))] ∧
    (enhancedFallbackEvent ts mode
      (jsonDumpsErrMsg (PyVal.dict (dset l "analysis_mode"
        (PyVal.str mode))))).lookup "message" =
      Option.some (.str ("Non-serializable event: " ++
        jsonDumpsErrMsg (PyVal.dict (dset l "analysis_mode"
          (PyVal.str mode))))) ∧
    (enhancedFallbackEvent ts mode
      (jsonDumpsErrMsg (PyVal.dict (dset l "analysis_mode"
        (PyVal.str mode))))).lookup "original_type" = Option.none := by
  refine ⟨?_, rfl, rfl, ?_, rfl, rfl⟩
  · unfold stream_callback
    rw [hns]
    rfl
  · unfold enhanced_stream_callback
    simp only
    rw [hns2]
    rfl

/-- Concrete witness for the amended C8: a `tool_call` event carrying a
non-serializable object, fed to both endpoints' callbacks. -/
theorem claim_C8_witness :
    (PyVal.dict [("type", PyVal.str "tool_call"),
      ("payload", PyVal.blob 7)]).serializable = false ∧
    (PyVal.dict (dset [("type", PyVal.str "tool_call"),
      ("payload", PyVal.blob 7)] "analysis_mode"
      (PyVal.str "simple"))).serializable = false ∧
    stream_callback 0
        (PyVal.dict [("type", PyVal.str "tool_call"),
          ("payload", PyVal.blob 7)]) [] =
      [fallbackEvent 0 (PyVal.dict [("type", PyVal.str "tool_call"),
        ("payload", PyVal.blob 7)])] ∧
    (enhancedFallbackEvent 0 "simple"
      (jsonDumpsErrMsg (PyVal.dict (dset [("type", PyVal.str "tool_call"),
        ("payload", PyVal.blob 7)] "analysis_mode"
        (PyVal.str "simple"))))).lookup "original_type" = Option.none :=
  ⟨by simp [PyVal.serializable, PyVal.serializableDict],
   by simp [dset, PyVal.serializable, PyVal.serializableDict],
   (claim_C8_fallback_event 0 "simple"
      [("type", PyVal.str "tool_call"), ("payload", PyVal.blob 7)] []
      (by simp [PyVal.serializable, PyVal.serializableDict])
      (by simp [dset, PyVal.serializable, PyVal.serializableDict])).1,
   (claim_C8_fallback_event 0 "simple"
      [("type", PyVal.str "tool_call"), ("payload", PyVal.blob 7)] []
      (by simp [PyVal.serializable, PyVal.serializableDict])
      (by simp [dset, PyVal.serializable, PyVal.serializableDict])).2.2.2.2.2⟩

/-! ## Serializability of the workflow records -/

theorem serializableDict_append (l1 l2 : List (String × PyVal)) :
    PyVal.serializableDict (l1 ++ l2) =
      (PyVal.serializableDict l1 && PyVal.serializableDict l2) := by
  induction l1 with
  | nil => simp [PyVal.serializableDict]
  | cons x xs ih =>
      obtain ⟨k, v⟩ := x
      simp [PyVal.serializableDict, ih, Bool.and_assoc]

theorem optEntry_serializable (k : String) (v : Option Nat) :
    PyVal.serializableDict (optEntry k v) = true := by
  cases v <;> simp [optEntry, PyVal.serializableDict, PyVal.serializable]

theorem extract_metrics_serializable (text : String) :
    (extract_metrics_from_analysis text).serializable = true := by
  unfold extract_metrics_from_analysis
  simp [PyVal.serializable, PyVal.serializableDict, serializableDict_append,
    optEntry_serializable]

theorem websiteVal_serializable (w : Option String) :
    (websiteVal w).serializable = true := by
  cases w <;> simp [websiteVal, PyVal.serializable]

theorem modesSuccessRecord_serializable (mode : AnalysisMode) (name : String)
    (website : Option String) (findings analysis report : String) (now : Nat) :
    (modesSuccessRecord mode name website findings analysis report
      now).serializable = true := by
  unfold modesSuccessRecord
  generalize hE : extract_metrics_from_analysis analysis = mv
  generalize hW : websiteVal website = wv
  have hm : mv.serializable = true := by
    rw [← hE]
    exact extract_metrics_serializable analysis
  have hw : wv.serializable = true := by
    rw [← hW]
    exact websiteVal_serializable website
  simp only [PyVal.serializable, PyVal.serializableDict] at hm hw ⊢
  cases mv <;> cases wv <;> simp_all

theorem modesSuccessRecord_truthy (mode : AnalysisMode) (name : String)
    (website : Option String) (findings analysis report : String) (now : Nat) :
    (modesSuccessRecord mode name website findings analysis report
      now).truthy = true := by
  unfold modesSuccessRecord
  simp [PyVal.truthy]

/-! ## Claim C3 — failed second stage: error populated, writer never
invoked, but stage-1 output not preserved -/

/-- **C3 (counterexample).**  A concrete run in which research completes
(`researcherCalls = 1` with output `"RESEARCH-OUT"`) and the analysis
stage raises: the returned record is the failed run record with the
error message populated and the writer never invoked — but it contains
no `research_findings` entry at all, refuting the claim that the
research stage's output is preserved in the failed run record. -/
theorem claim_C3_counterexample :
    (modesWorkflow .simple
      ⟨fun _ => Except.ok "RESEARCH-OUT",
       fun _ => Except.error (.error "analysis boom"),
       fun _ => Except.ok "REPORT"⟩
      ⟨true, 3600, 86400, []⟩ 0 "Acme" Option.none).researcherCalls = 1 ∧
    (modesWorkflow .simple
      ⟨fun _ => Except.ok "RESEARCH-OUT",
       fun _ => Except.error (.error "analysis boom"),
       fun _ => Except.ok "REPORT"⟩
      ⟨true, 3600, 86400, []⟩ 0 "Acme" Option.none).writerCalls = 0 ∧
    ((modesWorkflow .simple
      ⟨fun _ => Except.ok "RESEARCH-OUT",
       fun _ => Except.error (.error "analysis boom"),
       fun _ => Except.ok "REPORT"⟩
      ⟨true, 3600, 86400, []⟩ 0 "Acme" Option.none).record).lookup "status" =
      Option.some (.str "error") ∧
    ((modesWorkflow .simple
      ⟨fun _ => Except.ok "RESEARCH-OUT",
       fun _ => Except.error (.error "analysis boom"),
       fun _ => Except.ok "REPORT"⟩
      ⟨true, 3600, 86400, []⟩ 0 "Acme" Option.none).record).lookup
        "research_findings" = Option.none :=
  ⟨rfl, rfl, rfl, rfl⟩

/-- **C3 (amended).**  When the cache misses, research succeeds and the
analysis stage's external call fails, the workflow returns the failed
run record with the failing stage's error message populated and the
writer never invoked, leaving the cache untouched — but the record does
NOT contain the research stage's output (no `research_findings` key):
the error record carries only the request metadata and the message. -/
theorem claim_C3_analysis_failure (mode : AnalysisMode) (ag : Agents)
    (cache : RedisCache) (now : Nat) (name : String)
    (website : Option String) (findings : String) (e : PyExc)
    (hmiss : cache.get_analysis now (modesCacheName mode name) website =
      Option.none)
    (hres : ag.researcher (researchQuery mode name website) =
      Except.ok findings)
    (hana : ag.analyst (analysisQuery mode name findings) =
      Except.error e) :
    modesWorkflow mode ag cache now name website =
      ⟨modesErrorRecord mode name website e.message now, cache, 1, 1, 0,
        false⟩ ∧
    (modesErrorRecord mode name website e.message now).lookup "error" =
      Option.some (.str e.message) ∧
    (modesErrorRecord mode name website e.message now).lookup "status" =
      Option.some (.str "error") ∧
    (modesErrorRecord mode name website e.message now).lookup
      "research_findings" = Option.none := by
  refine ⟨?_, rfl, rfl, rfl⟩
  unfold modesWorkflow
  rw [hmiss]
  simp only
  unfold runModesStages
  rw [hres]
  simp only
  rw [hana]

/-- Concrete witness for the amended C3. -/
theorem claim_C3_witness :
    modesWorkflow .simple
      ⟨fun _ => Except.ok "RESEARCH-OUT",
       fun _ => Except.error (.error "analysis boom"),
       fun _ => Except.ok "REPORT"⟩
      ⟨true, 3600, 86400, []⟩ 0 "Notion" Option.none =
      ⟨modesErrorRecord .simple "Notion" Option.none "analysis boom" 0,
        ⟨true, 3600, 86400, []⟩, 1, 1, 0, false⟩ ∧
    (modesErrorRecord .simple "Notion" Option.none "analysis boom" 0).lookup
      "research_findings" = Option.none :=
  ⟨(claim_C3_analysis_failure .simple
      ⟨fun _ => Except.ok "RESEARCH-OUT",
       fun _ => Except.error (.error "analysis boom"),
       fun _ => Except.ok "REPORT"⟩
      ⟨true, 3600, 86400, []⟩ 0 "Notion" Option.none
      "RESEARCH-OUT" (.error "analysis boom") rfl rfl rfl).1,
   (claim_C3_analysis_failure .simple
      ⟨fun _ => Except.ok "RESEARCH-OUT",
       fun _ => Except.error (.error "analysis boom"),
       fun _ => Except.ok "REPORT"⟩
      ⟨true, 3600, 86400, []⟩ 0 "Notion" Option.none
      "RESEARCH-OUT" (.error "analysis boom") rfl rfl rfl).2.2.2⟩

/-! ## Claim C6 — no empty-subject validation exists -/

/-- **C6 (counterexample).**  A subject consisting of a single space —
empty after trimming — is not rejected: with a missing cache entry the
workflow starts pipeline work (the researcher is invoked) and, all
stages succeeding, the result is cached (`set_analysis` returned
`True`).  This refutes "a subject that is empty after trim is rejected
before any pipeline work starts and is never cached". -/
theorem claim_C6_counterexample :
    (modesWorkflow .simple
      ⟨fun _ => Except.ok "R", fun _ => Except.ok "A", fun _ => Except.ok "W"⟩
      ⟨true, 3600, 86400, []⟩ 0 " " Option.none).researcherCalls = 1 ∧
    (modesWorkflow .simple
      ⟨fun _ => Except.ok "R", fun _ => Except.ok "A", fun _ => Except.ok "W"⟩
      ⟨true, 3600, 86400, []⟩ 0 " " Option.none).cacheStored = true ∧
    ((modesWorkflow .simple
      ⟨fun _ => Except.ok "R", fun _ => Except.ok "A", fun _ => Except.ok "W"⟩
      ⟨true, 3600, 86400, []⟩ 0 " " Option.none).record).lookup "status" =
      Option.some (.str "success") :=
  ⟨rfl, rfl, rfl⟩

/-- **C6 (amended).**  Neither the fingerprint derivation nor the
workflow performs any subject validation: there is no `InvalidRequest`
rejection anywhere.  For every subject — including one empty after
trimming — a request whose fingerprint misses the cache starts pipeline
work (the researcher is invoked), and when all stages succeed with the
backend enabled the result is cached under the subject's fingerprint
and returned with status `success`. -/
theorem claim_C6_no_validation (mode : AnalysisMode) (ag : Agents)
    (cache : RedisCache) (now : Nat) (name : String)
    (website : Option String) (findings analysis report : String)
    (hmiss : cache.get_analysis now (modesCacheName mode name) website =
      Option.none)
    (hres : ag.researcher (researchQuery mode name website) =
      Except.ok findings)
    (hana : ag.analyst (analysisQuery mode name findings) =
      Except.ok analysis)
    (hwr : ag.writer (reportQuery mode name findings analysis) =
      Except.ok report)
    (hen : cache.enabled = true) :
    (modesWorkflow mode ag cache now name website).researcherCalls = 1 ∧
    (modesWorkflow mode ag cache now name website).cacheStored = true ∧
    ((modesWorkflow mode ag cache now name website).record).lookup "status" =
      Option.some (.str "success") := by
  have hw : modesWorkflow mode ag cache now name website =
      ⟨modesSuccessRecord mode name website findings analysis report now,
       (cache.set_analysis now (modesCacheName mode name)
         (modesSuccessRecord mode name website findings analysis report now)
         website).2, 1, 1, 1,
       (cache.set_analysis now (modesCacheName mode name)
         (modesSuccessRecord mode name website findings analysis report now)
         website).1⟩ := by
    unfold modesWorkflow
    rw [hmiss]
    simp only
    unfold runModesStages
    rw [hres]
    simp only
    rw [hana]
    simp only
    rw [hwr]
  rw [hw]
  refine ⟨rfl, ?_, rfl⟩
  unfold RedisCache.set_analysis RedisCache.set
  simp [hen]

/-- Concrete witness for the amended C6, at the whitespace-only
subject `" "`. -/
theorem claim_C6_witness :
    (modesWorkflow .simple
      ⟨fun _ => Except.ok "R", fun _ => Except.ok "A", fun _ => Except.ok "W"⟩
      ⟨true, 3600, 86400, []⟩ 0 " " (Option.some "")
      |>.researcherCalls) = 1 :=
  (claim_C6_no_validation .simple
    ⟨fun _ => Except.ok "R", fun _ => Except.ok "A", fun _ => Except.ok "W"⟩
    ⟨true, 3600, 86400, []⟩ 0 " " (Option.some "") "R" "A" "W"
    rfl rfl rfl rfl rfl).1

/-! ## Claim C1 — workflow idempotence through the cache -/

theorem set_fst_true_enabled {c : RedisCache} {now : Nat} {key : List Char}
    {data : PyVal} {ttl : Option Nat}
    (h : (c.set now key data ttl).1 = true) : c.enabled = true := by
  unfold RedisCache.set at h
  by_cases he : c.enabled
  · exact he
  · simp [he] at h

/-- If a workflow call reports `cacheStored = true`, it went down the
full-pipeline path: all three agents succeeded and the output is the
success record stored through `set_analysis`. -/
theorem runModesStages_stored_inv (mode : AnalysisMode) (ag : Agents)
    (cache : RedisCache) (now : Nat) (name : String)
    (website : Option String)
    (h : (runModesStages mode ag cache now name website).cacheStored = true) :
    ∃ findings analysis report,
      ag.researcher (researchQuery mode name website) =
        Except.ok findings ∧
      ag.analyst (analysisQuery mode name findings) = Except.ok analysis ∧
      ag.writer (reportQuery mode name findings analysis) =
        Except.ok report ∧
      runModesStages mode ag cache now name website =
        ⟨modesSuccessRecord mode name website findings analysis report now,
         (cache.set_analysis now (modesCacheName mode name)
           (modesSuccessRecord mode name website findings analysis report
             now) website).2, 1, 1, 1,
         (cache.set_analysis now (modesCacheName mode name)
           (modesSuccessRecord mode name website findings analysis report
             now) website).1⟩ := by
  unfold runModesStages at h ⊢
  cases hr : ag.researcher (researchQuery mode name website) with
  | error e => rw [hr] at h; simp at h
  | ok findings =>
    rw [hr] at h
    simp only at h ⊢
    cases ha : ag.analyst (analysisQuery mode name findings) with
    | error e => rw [ha] at h; simp at h
    | ok analysis =>
      rw [ha] at h
      simp only at h ⊢
      cases hwr : ag.writer (reportQuery mode name findings analysis) with
      | error e => rw [hwr] at h; simp at h
      | ok report =>
        exact ⟨findings, analysis, report, rfl, ha, hwr, rfl⟩

/-- Same inversion, lifted through the cache-check entry point. -/
theorem modesWorkflow_stored_inv (mode : AnalysisMode) (ag : Agents)
    (cache : RedisCache) (now : Nat) (name : String)
    (website : Option String)
    (h : (modesWorkflow mode ag cache now name website).cacheStored = true) :
    ∃ findings analysis report,
      ag.researcher (researchQuery mode name website) =
        Except.ok findings ∧
      ag.analyst (analysisQuery mode name findings) = Except.ok analysis ∧
      ag.writer (reportQuery mode name findings analysis) =
        Except.ok report ∧
      modesWorkflow mode ag cache now name website =
        ⟨modesSuccessRecord mode name website findings analysis report now,
         (cache.set_analysis now (modesCacheName mode name)
           (modesSuccessRecord mode name website findings analysis report
             now) website).2, 1, 1, 1,
         (cache.set_analysis now (modesCacheName mode name)
           (modesSuccessRecord mode name website findings analysis report
             now) website).1⟩ := by
  unfold modesWorkflow at h ⊢
  cases hg : cache.get_analysis now (modesCacheName mode name) website with
  | some cached =>
      rw [hg] at h
      simp only at h ⊢
      by_cases ht : cached.truthy = true
      · rw [if_pos ht] at h
        simp at h
      · rw [if_neg ht] at h ⊢
        exact runModesStages_stored_inv mode ag cache now name website h
  | none =>
      rw [hg] at h
      simp only at h ⊢
      exact runModesStages_stored_inv mode ag cache now name website h

/-- **C1.**  If a workflow call for a given mode, competitor name and
website reports success and stores its result in the cache
(`cacheStored = true`), then a second call with the same arguments
against the resulting cache state, made while the stored entry is still
live, returns exactly the first call's record, performs no store,
leaves the cache unchanged and never invokes the researcher, analyst or
writer agents. -/
theorem claim_C1_cache_idempotence (mode : AnalysisMode) (ag : Agents)
    (cache : RedisCache) (now later : Nat) (name : String)
    (website : Option String)
    (_hsucc : ((modesWorkflow mode ag cache now name website).record).lookup
      "status" = Option.some (.str "success"))
    (hstored : (modesWorkflow mode ag cache now name website).cacheStored =
      true)
    (hlive : cacheEntryLive (modesWorkflow mode ag cache now name
      website).cache (enhancedCacheKey mode name website) later = true) :
    modesWorkflow mode ag (modesWorkflow mode ag cache now name
      website).cache later name website =
      ⟨(modesWorkflow mode ag cache now name website).record,
       (modesWorkflow mode ag cache now name website).cache,
       0, 0, 0, false⟩ := by
  obtain ⟨findings, analysis, report, hf, ha, hr, heq⟩ :=
    modesWorkflow_stored_inv mode ag cache now name website hstored
  rw [heq] at hstored hlive ⊢
  simp only at hstored hlive ⊢
  have hen : cache.enabled = true := by
    unfold RedisCache.set_analysis at hstored
    exact set_fst_true_enabled hstored
  rw [show enhancedCacheKey mode name website =
    analysisCacheKey (modesCacheName mode name) website from rfl] at hlive
  unfold RedisCache.set_analysis RedisCache.set at hlive ⊢
  simp only [hen, not_true_eq_false, if_false] at hlive ⊢
  unfold cacheEntryLive at hlive
  simp only at hlive
  rw [lookup_dinsert] at hlive
  simp only [decide_eq_true_eq] at hlive
  unfold modesWorkflow RedisCache.get_analysis RedisCache.get
  simp only [hen, not_true_eq_false, if_false]
  rw [lookup_dinsert]
  simp only
  rw [if_pos (by exact hlive)]
  simp only
  rw [PyVal.jsonSafe_of_serializable _
    (modesSuccessRecord_serializable mode name website findings analysis
      report now)]
  rw [if_pos (modesSuccessRecord_truthy mode name website findings analysis
    report now)]

/-- Concrete witness for C1: simple mode, agents that always succeed,
a fresh enabled cache, first run at time 0, second run at time 1. -/
theorem claim_C1_witness :
    ((modesWorkflow AnalysisMode.simple
        ⟨fun _ => Except.ok "findings", fun _ => Except.ok "analysis text",
         fun _ => Except.ok "report"⟩
        ⟨true, 3600, 86400, []⟩ 0 "Acme" Option.none).record).lookup
      "status" = Option.some (PyVal.str "success") ∧
    (modesWorkflow AnalysisMode.simple
        ⟨fun _ => Except.ok "findings", fun _ => Except.ok "analysis text",
         fun _ => Except.ok "report"⟩
        ⟨true, 3600, 86400, []⟩ 0 "Acme" Option.none).cacheStored = true ∧
    cacheEntryLive (modesWorkflow AnalysisMode.simple
        ⟨fun _ => Except.ok "findings", fun _ => Except.ok "analysis text",
         fun _ => Except.ok "report"⟩
        ⟨true, 3600, 86400, []⟩ 0 "Acme" Option.none).cache
      (enhancedCacheKey AnalysisMode.simple "Acme" Option.none) 1 = true ∧
    modesWorkflow AnalysisMode.simple
        ⟨fun _ => Except.ok "findings", fun _ => Except.ok "analysis text",
         fun _ => Except.ok "report"⟩
        (modesWorkflow AnalysisMode.simple
          ⟨fun _ => Except.ok "findings", fun _ => Except.ok "analysis text",
           fun _ => Except.ok "report"⟩
          ⟨true, 3600, 86400, []⟩ 0 "Acme" Option.none).cache
        1 "Acme" Option.none =
      ⟨(modesWorkflow AnalysisMode.simple
          ⟨fun _ => Except.ok "findings", fun _ => Except.ok "analysis text",
           fun _ => Except.ok "report"⟩
          ⟨true, 3600, 86400, []⟩ 0 "Acme" Option.none).record,
       (modesWorkflow AnalysisMode.simple
          ⟨fun _ => Except.ok "findings", fun _ => Except.ok "analysis text",
           fun _ => Except.ok "report"⟩
          ⟨true, 3600, 86400, []⟩ 0 "Acme" Option.none).cache,
       0, 0, 0, false⟩ :=
  ⟨rfl, rfl, rfl,
    claim_C1_cache_idempotence AnalysisMode.simple
      ⟨fun _ => Except.ok "findings", fun _ => Except.ok "analysis text",
       fun _ => Except.ok "report"⟩
      ⟨true, 3600, 86400, []⟩ 0 1 "Acme" Option.none rfl rfl rfl⟩

/-! ## Claim C5 — the fingerprint respects and separates logical requests -/

/-- **C5.**  Two requests whose subjects agree after trimming whitespace
and lower-casing, with identical website values, derive the same
analysis cache key; requests differing in normalized subject, in website
value (`None` distinct from the empty string, URLs compared verbatim),
or in analysis mode derive different keys. -/
theorem claim_C5_fingerprint (n1 n2 : String) (w1 w2 : Option String)
    (m1 m2 : AnalysisMode) :
    (pyLower (pyStrip n1.data) = pyLower (pyStrip n2.data) → w1 = w2 →
      analysisCacheKey n1 w1 = analysisCacheKey n2 w2) ∧
    (pyLower (pyStrip n1.data) ≠ pyLower (pyStrip n2.data) →
      analysisCacheKey n1 w1 ≠ analysisCacheKey n2 w2) ∧
    (w1 ≠ w2 → analysisCacheKey n1 w1 ≠ analysisCacheKey n2 w2) ∧
    (m1 ≠ m2 → enhancedCacheKey m1 n1 w1 ≠ enhancedCacheKey m2 n1 w1) := by
  refine ⟨?_, ?_, ?_, ?_⟩
  · intro hn hw
    unfold analysisCacheKey analysisCacheKeyL
    rw [pyStrip_pyLower_comm, hn, hw, ← pyStrip_pyLower_comm]
  · intro hn h
    apply hn
    unfold analysisCacheKey at h
    have h2 := (analysisCacheKeyL_inj h).1
    rw [pyStrip_pyLower_comm, pyStrip_pyLower_comm] at h2
    exact h2
  · intro hw h
    apply hw
    unfold analysisCacheKey at h
    have h2 := (analysisCacheKeyL_inj h).2
    cases w1 with
    | none =>
      cases w2 with
      | none => rfl
      | some s2 => simp at h2
    | some s1 =>
      cases w2 with
      | none => simp at h2
      | some s2 =>
        simp only [Option.map_some'] at h2
        injection h2 with h3
        exact congrArg Option.some (String.ext h3)
  · exact fun hm => enhancedCacheKey_mode_ne hm n1 w1

/-- Concrete instances for C5: `"Acme"` and `" ACME "` share a key;
a different subject, a `None`-versus-empty website, or a different mode
each change the key. -/
theorem claim_C5_witness :
    analysisCacheKey "Acme" Option.none =
      analysisCacheKey " ACME " Option.none ∧
    analysisCacheKey "Acme" Option.none ≠
      analysisCacheKey "Apex" Option.none ∧
    analysisCacheKey "Acme" Option.none ≠
      analysisCacheKey "Acme" (Option.some "") ∧
    enhancedCacheKey AnalysisMode.simple "Acme" Option.none ≠
      enhancedCacheKey AnalysisMode.deep "Acme" Option.none :=
  ⟨(claim_C5_fingerprint "Acme" " ACME " Option.none Option.none
      AnalysisMode.simple AnalysisMode.deep).1 (by decide) rfl,
   (claim_C5_fingerprint "Acme" "Apex" Option.none Option.none
      AnalysisMode.simple AnalysisMode.deep).2.1 (by decide),
   (claim_C5_fingerprint "Acme" "Acme" Option.none (Option.some "")
      AnalysisMode.simple AnalysisMode.deep).2.2.1 (by decide),
   (claim_C5_fingerprint "Acme" "Acme" Option.none Option.none
      AnalysisMode.simple AnalysisMode.deep).2.2.2 (by decide)⟩

theorem countTerm_append (l1 l2 : List PyVal) :
    countTerm (l1 ++ l2) = countTerm l1 + countTerm l2 := by
  simp [countTerm, List.countP_append]

theorem countTerm_single_false {e : PyVal} (h : isTerminalEv e = false) :
    countTerm [e] = 0 := by
  simp [countTerm, List.countP_cons, h]

theorem countTerm_single_true {e : PyVal} (h : isTerminalEv e = true) :
    countTerm [e] = 1 := by
  simp [countTerm, List.countP_cons, h]

theorem isTerminalEv_sessionStart (ts : Nat) (sid msg : String) :
    isTerminalEv (sessionStartEvent ts sid msg) = false := rfl

theorem isTerminalEv_heartbeat (ts : Nat) :
    isTerminalEv (heartbeatEvent ts) = false := rfl

theorem isTerminalEv_cb (cb : CbEvent) :
    isTerminalEv cb.toPyVal = false := by
  cases cb <;> rfl

theorem isTerminalEv_terminal (ts : Nat) (outcome : Except PyExc PyVal) :
    isTerminalEv (terminalEvent ts outcome) = true := by
  cases outcome <;> rfl

theorem streamInv_step {T : PyVal} {s s' : StreamState}
    (hinv : StreamInv T s) (hstep : StreamStep s s') : StreamInv T s' := by
  cases hstep with
  | produce b bs q em =>
    rcases hinv with ⟨-, hc, hq, bs1, bs2, hb, hbs1⟩ |
      ⟨-, hc, q1, q2, hq, hq1⟩ | ⟨-, ⟨em1, hem, h0⟩, q2, hq⟩ | ⟨hcl, -⟩
    · cases bs1 with
      | nil =>
        rw [List.nil_append] at hb
        injection hb with hb1 hb2
        subst hb1; subst hb2
        right; left
        exact ⟨rfl, hc, q, [], rfl, hq⟩
      | cons b1 bs1' =>
        rw [List.cons_append] at hb
        injection hb with hb1 hb2
        subst hb1
        left
        refine ⟨rfl, hc, ?_, bs1', bs2, hb2,
          fun x hx => hbs1 x (List.mem_cons_of_mem _ hx)⟩
        intro x hx
        rcases List.mem_append.mp hx with hx1 | hx1
        · exact hq x hx1
        · exact hbs1 b (List.mem_cons_self _ _) x hx1
    · right; left
      have hq2 : q = q1 ++ Option.some T :: Option.none :: q2 := hq
      refine ⟨rfl, hc, q1, q2 ++ b, ?_, hq1⟩
      show q ++ b = q1 ++ Option.some T :: Option.none :: (q2 ++ b)
      rw [hq2, List.append_assoc]
      simp
    · right; right; left
      have hq2 : q = Option.none :: q2 := hq
      refine ⟨rfl, ⟨em1, hem, h0⟩, q2 ++ b, ?_⟩
      show q ++ b = Option.none :: (q2 ++ b)
      rw [hq2]
      simp
    · simp at hcl
  | deliver bs e q em =>
    rcases hinv with ⟨-, hc, hq, bs1, bs2, hb, hbs1⟩ |
      ⟨-, hc, q1, q2, hq, hq1⟩ | ⟨-, ⟨em1, hem, h0⟩, q2, hq⟩ | ⟨hcl, -⟩
    · left
      obtain ⟨e', he', hf⟩ := hq (Option.some e) (List.mem_cons_self _ _)
      injection he' with he2
      refine ⟨rfl, ?_, fun x hx => hq x (List.mem_cons_of_mem _ hx),
        bs1, bs2, hb, hbs1⟩
      rw [countTerm_append, hc, countTerm_single_false (he2 ▸ hf)]
    · cases q1 with
      | nil =>
        rw [List.nil_append] at hq
        injection hq with h1 h2
        injection h1 with h1
        right; right; left
        refine ⟨rfl, ⟨em, ?_, hc⟩, q2, h2⟩
        rw [h1]
      | cons x q1' =>
        rw [List.cons_append] at hq
        injection hq with h1 h2
        right; left
        refine ⟨rfl, ?_, q1', q2, h2,
          fun y hy => hq1 y (List.mem_cons_of_mem _ hy)⟩
        obtain ⟨e', he', hf⟩ := hq1 x (List.mem_cons_self _ _)
        rw [← h1] at he'
        injection he' with he2
        rw [countTerm_append, hc, countTerm_single_false (he2 ▸ hf)]
    · simp at hq
    · simp at hcl
  | finish bs q em =>
    rcases hinv with ⟨-, -, hq, -⟩ |
      ⟨-, hc, q1, q2, hq, hq1⟩ | ⟨-, ⟨em1, hem, h0⟩, q2, hq⟩ | ⟨hcl, -⟩
    · obtain ⟨e', he', -⟩ := hq Option.none (List.mem_cons_self _ _)
      exact Option.noConfusion he'
    · cases q1 with
      | nil => simp at hq
      | cons x q1' =>
        rw [List.cons_append] at hq
        injection hq with h1 h2
        obtain ⟨e', he', -⟩ := hq1 x (List.mem_cons_self _ _)
        rw [← h1] at he'
        exact Option.noConfusion he'
    · right; right; right
      exact ⟨rfl, em1, hem, h0⟩
    · simp at hcl
  | timeout ts bs em =>
    rcases hinv with ⟨-, hc, hq, bs1, bs2, hb, hbs1⟩ |
      ⟨-, hc, q1, q2, hq, hq1⟩ | ⟨-, ⟨em1, hem, h0⟩, q2, hq⟩ | ⟨hcl, -⟩
    · left
      refine ⟨rfl, ?_, fun x hx => absurd hx (List.not_mem_nil x),
        bs1, bs2, hb, hbs1⟩
      rw [countTerm_append, hc, countTerm_single_false
        (isTerminalEv_heartbeat ts)]
    · cases q1 with
      | nil => simp at hq
      | cons x q1' => simp at hq
    · simp at hq
    · simp at hcl

theorem streamInv_init (sid : String) (ts : Nat) (name : String)
    (pre : List CbEvent) (post : List PyVal)
    (outcome : Except PyExc PyVal) :
    StreamInv (terminalEvent ts outcome)
      (streamInit sid ts name pre post outcome) := by
  left
  refine ⟨rfl, ?_, ?_, pre.map (fun cb => [Option.some cb.toPyVal]),
    post.map (fun e => [Option.some e]), ?_, ?_⟩
  · exact countTerm_single_false (isTerminalEv_sessionStart ts sid _)
  · intro x hx
    exact absurd hx (List.not_mem_nil x)
  · show (pre.map fun cb => [Option.some cb.toPyVal]) ++
      [[Option.some (terminalEvent ts outcome), Option.none]] ++
      post.map (fun e => [Option.some e]) =
      (pre.map fun cb => [Option.some cb.toPyVal]) ++
      ([Option.some (terminalEvent ts outcome), Option.none] ::
        post.map (fun e => [Option.some e]))
    rw [List.append_assoc]
    rfl
  · intro b hb
    rw [List.mem_map] at hb
    obtain ⟨cb, -, rfl⟩ := hb
    intro x hx
    rw [List.mem_singleton] at hx
    exact ⟨cb.toPyVal, hx, isTerminalEv_cb cb⟩

theorem streamReach_inv (sid : String) (ts : Nat) (name : String)
    (pre : List CbEvent) (post : List PyVal)
    (outcome : Except PyExc PyVal) (s : StreamState)
    (h : StreamReach (streamInit sid ts name pre post outcome) s) :
    StreamInv (terminalEvent ts outcome) s := by
  induction h with
  | refl => exact streamInv_init sid ts name pre post outcome
  | tail hr hs ih => exact streamInv_step ih hs

/-- **C7.**  In every state reachable in a streaming run (any progress
events, any outcome, any scheduling): at most one terminal
(`complete`/`error`) event has been emitted; once the consumer's drain
loop has stopped at the sentinel, exactly one terminal event was
emitted, it is the last event of the stream (the sentinel immediately
followed it), and no further transition — hence no further event — is
possible. -/
theorem claim_C7_terminal_protocol (sid : String) (ts : Nat) (name : String)
    (pre : List CbEvent) (post : List PyVal)
    (outcome : Except PyExc PyVal) (s : StreamState)
    (h : StreamReach (streamInit sid ts name pre post outcome) s) :
    countTerm s.emitted ≤ 1 ∧
    (s.closed = true →
      (∃ em, s.emitted = em ++ [terminalEvent ts outcome] ∧
        countTerm em = 0 ∧ countTerm s.emitted = 1) ∧
      ∀ s', ¬ StreamStep s s') := by
  rcases streamReach_inv sid ts name pre post outcome s h with
    ⟨hcl, hc, -, -⟩ | ⟨hcl, hc, -⟩ | ⟨hcl, hem', -⟩ | ⟨hcl, hem'⟩
  · exact ⟨by rw [hc]; exact Nat.zero_le 1,
      fun hc2 => absurd hc2 (by rw [hcl]; simp)⟩
  · exact ⟨by rw [hc]; exact Nat.zero_le 1,
      fun hc2 => absurd hc2 (by rw [hcl]; simp)⟩
  · obtain ⟨em1, hem, h0⟩ := hem'
    have h1 : countTerm s.emitted = 1 := by
      rw [hem, countTerm_append, h0,
        countTerm_single_true (isTerminalEv_terminal ts outcome)]
    exact ⟨h1.le, fun hc2 => absurd hc2 (by rw [hcl]; simp)⟩
  · obtain ⟨em1, hem, h0⟩ := hem'
    have h1 : countTerm s.emitted = 1 := by
      rw [hem, countTerm_append, h0,
        countTerm_single_true (isTerminalEv_terminal ts outcome)]
    refine ⟨h1.le, fun _ => ⟨⟨em1, hem, h0, h1⟩, ?_⟩⟩
    intro s' hs
    cases hs <;> simp at hcl

/-- Concrete witness for C7: a run with no progress events whose analysis
returns `"r"`; the consumer delivers the terminal event and stops at the
sentinel. -/
theorem claim_C7_witness :
    countTerm [sessionStartEvent 0 "sid" ("Starting analysis for " ++
        "Acme"), terminalEvent 0 (Except.ok (PyVal.str "r"))] ≤ 1 ∧
    ((true : Bool) = true →
      (∃ em, ([sessionStartEvent 0 "sid" ("Starting analysis for " ++
          "Acme"), terminalEvent 0 (Except.ok (PyVal.str "r"))] :
            List PyVal) =
          em ++ [terminalEvent 0 (Except.ok (PyVal.str "r"))] ∧
        countTerm em = 0 ∧
        countTerm [sessionStartEvent 0 "sid" ("Starting analysis for " ++
          "Acme"), terminalEvent 0 (Except.ok (PyVal.str "r"))] = 1) ∧
      ∀ s', ¬ StreamStep ⟨[], [],
        [sessionStartEvent 0 "sid" ("Starting analysis for " ++ "Acme"),
         terminalEvent 0 (Except.ok (PyVal.str "r"))], true⟩ s') :=
  claim_C7_terminal_protocol "sid" 0 "Acme" [] []
    (Except.ok (PyVal.str "r"))
    ⟨[], [],
     [sessionStartEvent 0 "sid" ("Starting analysis for " ++ "Acme"),
      terminalEvent 0 (Except.ok (PyVal.str "r"))], true⟩
    (StreamReach.tail (StreamReach.tail (StreamReach.tail StreamReach.refl
      (StreamStep.produce
        [Option.some (terminalEvent 0 (Except.ok (PyVal.str "r"))),
         Option.none] [] []
        [sessionStartEvent 0 "sid" ("Starting analysis for " ++ "Acme")]))
      (StreamStep.deliver [] (terminalEvent 0 (Except.ok (PyVal.str "r")))
        [Option.none]
        [sessionStartEvent 0 "sid" ("Starting analysis for " ++ "Acme")]))
      (StreamStep.finish [] []
        [sessionStartEvent 0 "sid" ("Starting analysis for " ++ "Acme"),
         terminalEvent 0 (Except.ok (PyVal.str "r"))]))
